import Mathlib

set_option maxRecDepth 40000

/-!
Verification development for the `prng` examples of the cf4ocl-examples
repository (`src/prng/rng_ocl.c`, `src/prng/rng_ccl.c`,
`src/examples_common.in.h`).

The two programs stream random numbers produced on an OpenCL device to
stdout using a double-buffered pipeline with a main (compute) thread and a
background output thread (`rng_out`).  We give a shallow embedding of the
steady-state concurrent phase of both variants as small-step interleaving
transition systems:

* `RngOcl` — the semaphore variant `rng_ocl.c`: the two POSIX semaphores
  `sem_rng` and `sem_comm` (both initialized to 1 at `main`, lines
  207-209), the output thread `rng_out` (lines 92-137) and the main
  compute loop (lines 432-467).  The model starts at the point just after
  `pthread_create` (line 429), i.e. after the `init` kernel has populated
  the first device buffer and both semaphores hold value 1.

* `RngCcl` — the condition-variable variant `rng_ccl.c`: the shared
  counters `i_rng` / `i_comm`, `update_and_notify` / `wait_for_update`
  (lines 60-80), the output thread `rng_out` (lines 115-149) and the main
  loop (lines 303-331).

Buffer identities are modelled as `Nat` indices in `{0, 1}` (0 is the
buffer written by the `init` kernel).  Device-buffer contents are modelled
abstractly by a production tag: the `init` kernel writes tag `0`, the
`rng` kernel invocation of main-loop iteration `i` writes tag `i + 1`.
The bytes emitted by `fwrite` at a worker iteration are represented by
the tag of the host buffer at that moment, collected in the `out` list.
Machine integers (`unsigned int`, `cl_uint`) are `Nat` with reductions
modulo `2 ^ 32` exactly where the C code can wrap (`numiter - 1` in the
loop bounds, the `(cl_uint)` conversion of `atoi` results).

External effects are oracles in the configuration: the status returned by
`clEnqueueReadBuffer` at worker iteration `i` (`readErr`), the status of
the `rng` kernel enqueue/finish at main iteration `i` (`kernErr`), and
whether the `fwrite` to stdout at worker iteration `i` succeeds
(`sinkOk`; the C code discards the result of `fwrite`).
-/

/-- The value of `numiter - 1` computed in `unsigned int` arithmetic:
for `numiter = 0` the subtraction wraps around to `4294967295`.  Both
variants use this expression (`rng_ocl.c` line 432 and `rng_ccl.c` lines
139 and 303). -/
def uintPred (numiter : Nat) : Nat :=
  (numiter + 4294967295) % 4294967296

/-- The two threads of the steady-state phase: the main (compute) thread
and the output thread created with `pthread_create`. -/
inductive Thread where
  | mainT
  | workT
deriving DecidableEq

namespace RngOcl

/-- Reason the process terminated through `exit(EXIT_FAILURE)` in
`HANDLE_ERROR` (rng_ocl.c lines 46-50): either a kernel/queue error in the
main thread, or the main thread observing `bufs.status != CL_SUCCESS`
reported by the output thread (line 447). -/
inductive AbortReason where
  | kernelFail (e : Nat)
  | commFail (e : Nat)
deriving DecidableEq

/-- Program counter of the output thread `rng_out` (rng_ocl.c 92-137).
`cond` is the `for` loop condition `i < bufs->numiter`; `wait` is
`sem_wait(&sem_rng)`; `read` is the blocking `clEnqueueReadBuffer`;
`post` is `sem_post(&sem_comm)` together with the immediately following
check `if (bufs->status != CL_SUCCESS) return NULL` (the check touches
only fields written by this thread); `emit` is the `fwrite`/`fflush`
together with the buffer-pointer swap and `i++` (all thread-local);
`done` is `return NULL`. -/
inductive WPC where
  | cond
  | wait
  | read
  | post
  | emit
  | done
deriving DecidableEq

/-- Program counter of the main thread's steady-state loop
(rng_ocl.c 432-470).  `cond` is `i < bufs.numiter - 1` (the
`clSetKernelArg` calls have no shared effect and are folded into it);
`wait` is `sem_wait(&sem_comm)`; `check` is `HANDLE_ERROR(bufs.status)`;
`kernel` is the `clEnqueueNDRangeKernel` + `clFinish` pair writing the
buffer currently pointed to by `bufdev2`; `post` is `sem_post(&sem_rng)`
together with the pointer swap and `i++` (thread-local); `join` is
`pthread_join`; `done` is the end of the run. -/
inductive MPC where
  | cond
  | wait
  | check
  | kernel
  | post
  | join
  | done
deriving DecidableEq

/-- Run configuration and external-effect oracles. -/
structure RConfig where
  /-- `bufs.numrn`: number of `cl_ulong` elements per buffer. -/
  numrn : Nat
  /-- `bufs.numiter`: number of iterations (an `unsigned int`). -/
  numiter : Nat
  /-- Status returned by `clEnqueueReadBuffer` at worker iteration `i`
  (`0` = `CL_SUCCESS`). -/
  readErr : Nat → Nat
  /-- Status of the `rng` kernel enqueue + `clFinish` at main-loop
  iteration `i` (`0` = `CL_SUCCESS`). -/
  kernErr : Nat → Nat
  /-- Whether the `fwrite` at worker iteration `i` fully succeeds.  The C
  code never inspects this result. -/
  sinkOk : Nat → Bool

/-- State of the steady-state phase of `rng_ocl.c`.  `i_rng` and `i_comm`
are instrumentation counters mirroring the homonymous counters of
`rng_ccl.c`: `i_rng` counts completed `rng`-kernel productions
(incremented with `sem_post(&sem_rng)`), `i_comm` counts completed
device-to-host reads (incremented with `sem_post(&sem_comm)`). -/
structure RState where
  mpc : MPC
  /-- Main loop variable `i`. -/
  mi : Nat
  /-- Main thread's local `bufdev1` pointer (buffer index 0 or 1). -/
  mb1 : Nat
  /-- Main thread's local `bufdev2` pointer. -/
  mb2 : Nat
  wpc : WPC
  /-- Worker loop variable `i`. -/
  wi : Nat
  /-- Worker's local `bufdev1` pointer. -/
  wb1 : Nat
  /-- Worker's local `bufdev2` pointer. -/
  wb2 : Nat
  /-- Value of semaphore `sem_rng`. -/
  sem_rng : Nat
  /-- Value of semaphore `sem_comm`. -/
  sem_comm : Nat
  /-- Content tag of device buffer 0 (written by the `init` kernel). -/
  dev0 : Nat
  /-- Content tag of device buffer 1. -/
  dev1 : Nat
  /-- Content tag of the host buffer `bufs.bufhost`. -/
  bufhost : Nat
  /-- Shared error slot `bufs.status` (`0` = `CL_SUCCESS`). -/
  status : Nat
  /-- Tags emitted to stdout, in order. -/
  out : List Nat
  /-- Completed `rng` kernel productions (mirrors `i_rng` of rng_ccl.c). -/
  i_rng : Nat
  /-- Completed device-to-host reads (mirrors `i_comm` of rng_ccl.c). -/
  i_comm : Nat
  /-- `some r` once `exit(EXIT_FAILURE)` has run in `HANDLE_ERROR`. -/
  aborted : Option AbortReason
deriving DecidableEq

/-- Content of the device buffer with index `b`. -/
def getDev (s : RState) (b : Nat) : Nat :=
  if b = 0 then s.dev0 else s.dev1

/-- Initial state of the steady-state phase: the `init` kernel has filled
device buffer 0 (tag `0`), both semaphores hold `1`, both threads are at
their loop conditions, device buffer 1 and the host buffer hold arbitrary
uninitialized contents `j1` and `j2`. -/
def initState (j1 j2 : Nat) : RState where
  mpc := .cond
  mi := 0
  mb1 := 0
  mb2 := 1
  wpc := .cond
  wi := 0
  wb1 := 0
  wb2 := 1
  sem_rng := 1
  sem_comm := 1
  dev0 := 0
  dev1 := j1
  bufhost := j2
  status := 0
  out := []
  i_rng := 0
  i_comm := 0
  aborted := none

/-- Whether thread `th` can take a step from state `s`.  A thread blocked
in `sem_wait` on a zero semaphore, a finished thread, and both threads of
an exited process have no step; `pthread_join` blocks until the worker has
returned. -/
def enabledT (th : Thread) (s : RState) : Bool :=
  s.aborted = none &&
    match th with
    | .mainT =>
      match s.mpc with
      | .cond => true
      | .wait => 0 < s.sem_comm
      | .check => true
      | .kernel => true
      | .post => true
      | .join => s.wpc = .done
      | .done => false
    | .workT =>
      match s.wpc with
      | .cond => true
      | .wait => 0 < s.sem_rng
      | .read => true
      | .post => true
      | .emit => true
      | .done => false

/-- Effect of one step of thread `th` from state `s` (meaningful when
`enabledT th s`). -/
def applyT (cfg : RConfig) (th : Thread) (s : RState) : RState :=
  match th with
  | .mainT =>
    match s.mpc with
    | .cond =>
      if s.mi < uintPred cfg.numiter then { s with mpc := .wait }
      else { s with mpc := .join }
    | .wait => { s with sem_comm := s.sem_comm - 1, mpc := .check }
    | .check =>
      if s.status ≠ 0 then { s with aborted := some (.commFail s.status) }
      else { s with mpc := .kernel }
    | .kernel =>
      if cfg.kernErr s.mi ≠ 0 then
        { s with aborted := some (.kernelFail (cfg.kernErr s.mi)) }
      else if s.mb2 = 0 then { s with dev0 := s.mi + 1, mpc := .post }
      else { s with dev1 := s.mi + 1, mpc := .post }
    | .post =>
      { s with sem_rng := s.sem_rng + 1, i_rng := s.i_rng + 1,
               mb1 := s.mb2, mb2 := s.mb1, mi := s.mi + 1, mpc := .cond }
    | .join => { s with mpc := .done }
    | .done => s
  | .workT =>
    match s.wpc with
    | .cond =>
      if s.wi < cfg.numiter then { s with wpc := .wait }
      else { s with wpc := .done }
    | .wait => { s with sem_rng := s.sem_rng - 1, wpc := .read }
    | .read =>
      if cfg.readErr s.wi ≠ 0 then
        { s with status := cfg.readErr s.wi, wpc := .post }
      else { s with bufhost := getDev s s.wb1, wpc := .post }
    | .post =>
      if s.status ≠ 0 then
        { s with sem_comm := s.sem_comm + 1, i_comm := s.i_comm + 1,
                 wpc := .done }
      else
        { s with sem_comm := s.sem_comm + 1, i_comm := s.i_comm + 1,
                 wpc := .emit }
    | .emit =>
      { s with out := s.out ++ [s.bufhost],
               wb1 := s.wb2, wb2 := s.wb1, wi := s.wi + 1, wpc := .cond }
    | .done => s

/-- Total step function: a disabled thread makes no progress. -/
def stepT (cfg : RConfig) (th : Thread) (s : RState) : RState :=
  if enabledT th s then applyT cfg th s else s

/-- One interleaving step of the two-thread system. -/
def Step (cfg : RConfig) (th : Thread) (s s' : RState) : Prop :=
  enabledT th s = true ∧ s' = applyT cfg th s

/-- States reachable from `s0` by interleaving steps of the two threads. -/
inductive Reach (cfg : RConfig) (s0 : RState) : RState → Prop where
  | refl : Reach cfg s0 s0
  | step {s s' : RState} {th : Thread} :
      Reach cfg s0 s → Step cfg th s s' → Reach cfg s0 s'

/-- Run a concrete schedule (list of thread choices); disabled threads
no-op. -/
def exec (cfg : RConfig) (sched : List Thread) (s : RState) : RState :=
  sched.foldl (fun s th => stepT cfg th s) s

/-- A state with no enabled step in either thread. -/
def Terminal (s : RState) : Prop :=
  enabledT .mainT s = false ∧ enabledT .workT s = false

theorem stepT_eq_or_step (cfg : RConfig) (th : Thread) (s : RState) :
    stepT cfg th s = s ∨ Step cfg th s (stepT cfg th s) := by
  by_cases h : enabledT th s = true
  · exact Or.inr ⟨h, by simp [stepT, h]⟩
  · exact Or.inl (by simp [stepT, h])

theorem reach_exec (cfg : RConfig) (sched : List Thread) {s0 s : RState}
    (h : Reach cfg s0 s) : Reach cfg s0 (exec cfg sched s) := by
  induction sched generalizing s with
  | nil => exact h
  | cons th rest ih =>
    have : Reach cfg s0 (stepT cfg th s) := by
      rcases stepT_eq_or_step cfg th s with he | hs
      · rwa [he]
      · exact .step h hs
    exact ih this

/-- Number of completed `sem_wait(&sem_rng)` operations: one per fully
completed worker iteration plus one if the worker is currently between
its `sem_wait` and its `sem_post`. -/
def waitsR (s : RState) : Nat :=
  s.i_comm + (match s.wpc with | .read => 1 | .post => 1 | _ => 0)

/-- Number of completed `sem_wait(&sem_comm)` operations: one per
completed main-loop iteration plus one if the main thread is currently
between its `sem_wait` and its `sem_post`. -/
def waitsC (s : RState) : Nat :=
  s.mi + (match s.mpc with | .check => 1 | .kernel => 1 | .post => 1 | _ => 0)

/-- Core inductive invariant of the steady-state phase, valid for every
configuration (including failing oracles): pointer/parity facts about the
manual buffer swaps, the instrumentation counters, semaphore-value
conservation, and loop bounds. -/
structure InvCore (cfg : RConfig) (s : RState) : Prop where
  wb1_eq : s.wb1 = s.wi % 2
  wb2_eq : s.wb2 = 1 - s.wi % 2
  mb1_eq : s.mb1 = s.mi % 2
  mb2_eq : s.mb2 = 1 - s.mi % 2
  irng_eq : s.i_rng = s.mi
  icomm_mid : s.wpc ≠ .emit → s.wpc ≠ .done → s.i_comm = s.wi
  icomm_emit : s.wpc = .emit → s.i_comm = s.wi + 1
  icomm_done : s.wpc = .done → s.i_comm = s.wi ∨ s.i_comm = s.wi + 1
  semr : s.sem_rng + waitsR s = 1 + s.i_rng
  semc : s.sem_comm + waitsC s = 1 + s.i_comm
  out_len : s.out.length = s.wi
  mi_le : s.mi ≤ uintPred cfg.numiter
  mi_lt : s.mpc = .wait ∨ s.mpc = .check ∨ s.mpc = .kernel ∨ s.mpc = .post →
      s.mi < uintPred cfg.numiter
  wi_le : s.wi ≤ cfg.numiter
  wi_lt : s.wpc = .wait ∨ s.wpc = .read ∨ s.wpc = .post ∨ s.wpc = .emit →
      s.wi < cfg.numiter
  mdone : s.mpc = .done → s.wpc = .done

theorem invCore_init (cfg : RConfig) (j1 j2 : Nat) :
    InvCore cfg (initState j1 j2) := by
  constructor <;> simp [initState, waitsR, waitsC]

theorem invCore_step {cfg : RConfig} {th : Thread} {s s' : RState}
    (inv : InvCore cfg s) (h : Step cfg th s s') : InvCore cfg s' := by
  obtain ⟨hwb1, hwb2, hmb1, hmb2, hir, hicm, hice, hicd, hsr, hsc, hol,
    hmle, hmlt, hwle, hwlt, hmd⟩ := inv
  obtain ⟨hen, rfl⟩ := h
  cases th with
  | mainT =>
    cases hm : s.mpc with
    | cond =>
      simp only [applyT, hm]
      split
      · next hlt =>
        refine ⟨hwb1, hwb2, hmb1, hmb2, hir, hicm, hice, hicd, ?_, ?_,
          hol, hmle, fun _ => hlt, hwle, hwlt, by simp⟩
        · simpa [waitsR] using hsr
        · simp only [waitsC, hm] at hsc; simpa [waitsC] using hsc
      · next hge =>
        refine ⟨hwb1, hwb2, hmb1, hmb2, hir, hicm, hice, hicd, ?_, ?_,
          hol, hmle, by simp, hwle, hwlt, by simp⟩
        · simpa [waitsR] using hsr
        · simp only [waitsC, hm] at hsc; simpa [waitsC] using hsc
    | wait =>
      simp only [applyT, hm]
      simp only [enabledT, hm, Bool.and_eq_true, decide_eq_true_eq] at hen
      refine ⟨hwb1, hwb2, hmb1, hmb2, hir, hicm, hice, hicd, ?_, ?_,
        hol, hmle, fun _ => hmlt (by simp [hm]), hwle, hwlt, by simp⟩
      · simpa [waitsR] using hsr
      · simp only [waitsC, hm] at hsc; simp only [waitsC]; omega
    | check =>
      simp only [applyT, hm]
      split
      · exact ⟨hwb1, hwb2, hmb1, hmb2, hir, hicm, hice, hicd,
          (by simpa [waitsR] using hsr),
          (by simpa [waitsC, hm] using hsc), hol, hmle,
          fun hh => hmlt (by simp [hm]), hwle, hwlt,
          fun hh => absurd hh (by simp [hm])⟩
      · refine ⟨hwb1, hwb2, hmb1, hmb2, hir, hicm, hice, hicd, ?_, ?_,
          hol, hmle, fun _ => hmlt (by simp [hm]), hwle, hwlt, by simp⟩
        · simpa [waitsR] using hsr
        · simp only [waitsC, hm] at hsc; simpa [waitsC] using hsc
    | kernel =>
      simp only [applyT, hm]
      split
      · exact ⟨hwb1, hwb2, hmb1, hmb2, hir, hicm, hice, hicd,
          (by simpa [waitsR] using hsr),
          (by simpa [waitsC, hm] using hsc), hol, hmle,
          fun hh => hmlt (by simp [hm]), hwle, hwlt,
          fun hh => absurd hh (by simp [hm])⟩
      · split
        · refine ⟨hwb1, hwb2, hmb1, hmb2, hir, hicm, hice, hicd, ?_, ?_,
            hol, hmle, fun _ => hmlt (by simp [hm]), hwle, hwlt, by simp⟩
          · simpa [waitsR] using hsr
          · simp only [waitsC, hm] at hsc; simpa [waitsC] using hsc
        · refine ⟨hwb1, hwb2, hmb1, hmb2, hir, hicm, hice, hicd, ?_, ?_,
            hol, hmle, fun _ => hmlt (by simp [hm]), hwle, hwlt, by simp⟩
          · simpa [waitsR] using hsr
          · simp only [waitsC, hm] at hsc; simpa [waitsC] using hsc
    | post =>
      simp only [applyT, hm]
      have hlt : s.mi < uintPred cfg.numiter := hmlt (by simp [hm])
      refine ⟨hwb1, hwb2, ?_, ?_, by simpa using hir, hicm, hice, hicd,
        ?_, ?_, hol, by simp only; omega, by simp, hwle, hwlt, by simp⟩
      · simp only; omega
      · simp only; omega
      · simp only [waitsR] at hsr ⊢; omega
      · simp only [waitsC, hm] at hsc; simp only [waitsC]; omega
    | join =>
      simp only [applyT, hm]
      simp only [enabledT, hm, Bool.and_eq_true, decide_eq_true_eq] at hen
      refine ⟨hwb1, hwb2, hmb1, hmb2, hir, hicm, hice, hicd, ?_, ?_,
        hol, hmle, by simp, hwle, hwlt, fun _ => hen.2⟩
      · simpa [waitsR] using hsr
      · simp only [waitsC, hm] at hsc; simpa [waitsC] using hsc
    | done =>
      simp only [enabledT, hm, Bool.and_eq_true] at hen
      exact absurd hen.2 (by simp)
  | workT =>
    cases hw : s.wpc with
    | cond =>
      simp only [applyT, hw]
      split
      · next hlt =>
        refine ⟨hwb1, hwb2, hmb1, hmb2, hir, fun _ _ => hicm (by simp [hw])
          (by simp [hw]), by simp, by simp, ?_, ?_, hol, hmle, hmlt,
          hwle, fun _ => hlt, fun hh => absurd (hmd hh) (by simp [hw])⟩
        · simp only [waitsR, hw] at hsr; simpa [waitsR] using hsr
        · simpa [waitsC] using hsc
      · next hge =>
        refine ⟨hwb1, hwb2, hmb1, hmb2, hir, by simp, by simp,
          fun _ => Or.inl (hicm (by simp [hw]) (by simp [hw])), ?_, ?_,
          hol, hmle, hmlt, hwle, by simp, fun _ => rfl⟩
        · simp only [waitsR, hw] at hsr; simpa [waitsR] using hsr
        · simpa [waitsC] using hsc
    | wait =>
      simp only [applyT, hw]
      simp only [enabledT, hw, Bool.and_eq_true, decide_eq_true_eq] at hen
      refine ⟨hwb1, hwb2, hmb1, hmb2, hir, fun _ _ => hicm (by simp [hw])
        (by simp [hw]), by simp, by simp, ?_, ?_, hol, hmle, hmlt,
        hwle, fun _ => hwlt (by simp [hw]),
        fun hh => absurd (hmd hh) (by simp [hw])⟩
      · simp only [waitsR, hw] at hsr; simp only [waitsR]; omega
      · simpa [waitsC] using hsc
    | read =>
      simp only [applyT, hw]
      split
      · refine ⟨hwb1, hwb2, hmb1, hmb2, hir, fun _ _ => hicm (by simp [hw])
          (by simp [hw]), by simp, by simp, ?_, ?_, hol, hmle, hmlt,
          hwle, fun _ => hwlt (by simp [hw]),
          fun hh => absurd (hmd hh) (by simp [hw])⟩
        · simp only [waitsR, hw] at hsr; simpa [waitsR] using hsr
        · simpa [waitsC] using hsc
      · refine ⟨hwb1, hwb2, hmb1, hmb2, hir, fun _ _ => hicm (by simp [hw])
          (by simp [hw]), by simp, by simp, ?_, ?_, hol, hmle, hmlt,
          hwle, fun _ => hwlt (by simp [hw]),
          fun hh => absurd (hmd hh) (by simp [hw])⟩
        · simp only [waitsR, hw] at hsr; simpa [waitsR] using hsr
        · simpa [waitsC] using hsc
    | post =>
      simp only [applyT, hw]
      have hiw : s.i_comm = s.wi := hicm (by simp [hw]) (by simp [hw])
      split
      · refine ⟨hwb1, hwb2, hmb1, hmb2, hir, by simp, by simp,
          fun _ => Or.inr (by simp only; omega), ?_, ?_, hol, hmle, hmlt, hwle,
          by simp, fun hh => absurd (hmd hh) (by simp [hw])⟩
        · simp only [waitsR, hw] at hsr; simp only [waitsR]; omega
        · simp only [waitsC] at hsc ⊢; omega
      · refine ⟨hwb1, hwb2, hmb1, hmb2, hir, by simp,
          fun _ => by simp only; omega, by simp, ?_, ?_, hol, hmle, hmlt, hwle,
          fun _ => hwlt (by simp [hw]),
          fun hh => absurd (hmd hh) (by simp [hw])⟩
        · simp only [waitsR, hw] at hsr; simp only [waitsR]; omega
        · simp only [waitsC] at hsc ⊢; omega
    | emit =>
      simp only [applyT, hw]
      have hie : s.i_comm = s.wi + 1 := hice hw
      have hlt : s.wi < cfg.numiter := hwlt (by simp [hw])
      refine ⟨?_, ?_, hmb1, hmb2, hir, fun _ _ => by simpa using hie,
        by simp, by simp, ?_, ?_, ?_, hmle, hmlt, by simp only; omega,
        by simp, fun hh => absurd (hmd hh) (by simp [hw])⟩
      · simp only; omega
      · simp only; omega
      · simp only [waitsR, hw] at hsr; simpa [waitsR] using hsr
      · simpa [waitsC] using hsc
      · simpa using hol
    | done =>
      simp only [enabledT, hw, Bool.and_eq_true] at hen
      exact absurd hen.2 (by simp)

theorem reach_invCore {cfg : RConfig} {j1 j2 : Nat} {s : RState}
    (h : Reach cfg (initState j1 j2) s) : InvCore cfg s := by
  induction h with
  | refl => exact invCore_init cfg j1 j2
  | step _ hs ih => exact invCore_step ih hs

/-- All transfers and kernel invocations report `CL_SUCCESS`. -/
def Success (cfg : RConfig) : Prop :=
  ∀ i, cfg.readErr i = 0 ∧ cfg.kernErr i = 0

/-- Number of completed `rng`-kernel buffer writes, including the one
whose `sem_post` is still pending. -/
def kernDone (s : RState) : Nat :=
  s.mi + (match s.mpc with | .post => 1 | _ => 0)

/-- Data-flow invariant, valid when all external operations succeed:
which production tag each buffer holds, and that the emitted stream is
exactly the tags `0, 1, 2, …` in order. -/
structure InvData (cfg : RConfig) (j1 : Nat) (s : RState) : Prop where
  status_ok : s.status = 0
  no_abort : s.aborted = none
  out_eq : s.out = List.range s.wi
  host_eq : s.wpc = .post ∨ s.wpc = .emit → s.bufhost = s.wi
  dev_init : kernDone s = 0 → s.dev0 = 0 ∧ s.dev1 = j1
  dev_cur : 1 ≤ kernDone s → getDev s (kernDone s % 2) = kernDone s
  dev_prev : 1 ≤ kernDone s →
      getDev s ((kernDone s + 1) % 2) = kernDone s - 1
  wdone : s.wpc = .done → s.wi = cfg.numiter

theorem invData_init (cfg : RConfig) (j1 j2 : Nat) :
    InvData cfg j1 (initState j1 j2) := by
  constructor <;> simp [initState, kernDone, getDev]

/-- At the worker's read, the buffer it is about to copy holds exactly
the tag of the current worker iteration.  This is the heart of the
pipeline's functional correctness: the semaphore discipline pins the
compute thread's progress `kernDone` to `{wi, wi + 1}` at this point. -/
theorem read_sees_wi {cfg : RConfig} {j1 : Nat} {s : RState}
    (hc : InvCore cfg s) (hd : InvData cfg j1 s) (hw : s.wpc = .read) :
    getDev s (s.wi % 2) = s.wi := by
  have hic : s.i_comm = s.wi := hc.icomm_mid (by simp [hw]) (by simp [hw])
  have hwR : waitsR s = s.i_comm + 1 := by simp [waitsR, hw]
  have hir : s.i_rng = s.mi := hc.irng_eq
  have h1 : s.wi ≤ s.mi := by
    have := hc.semr
    rw [hwR] at this
    omega
  have h2 : kernDone s ≤ 1 + s.wi := by
    have := hc.semc
    have hkw : kernDone s ≤ waitsC s := by
      unfold kernDone waitsC
      cases s.mpc <;> simp <;> omega
    omega
  have h3 : s.wi ≤ kernDone s := by
    unfold kernDone; omega
  rcases Nat.lt_or_ge (kernDone s) 1 with hk0 | hk1
  · have h0 : kernDone s = 0 := by omega
    have hwi0 : s.wi = 0 := by omega
    have := hd.dev_init h0
    simp [getDev, hwi0, this.1]
  · rcases Nat.eq_or_lt_of_le h3 with heq | hlt
    · have := hd.dev_cur hk1
      rw [← heq] at this
      exact this
    · have hkw1 : kernDone s = s.wi + 1 := by omega
      have := hd.dev_prev hk1
      rw [hkw1] at this
      have hmod : (s.wi + 1 + 1) % 2 = s.wi % 2 := by omega
      rw [hmod] at this
      simpa using this

theorem invData_step {cfg : RConfig} {j1 : Nat} {th : Thread}
    {s s' : RState} (hsucc : Success cfg) (hc : InvCore cfg s)
    (hd : InvData cfg j1 s) (h : Step cfg th s s') : InvData cfg j1 s' := by
  obtain ⟨hst, hab, hout, hhost, hdi, hdc, hdp, hwd⟩ := hd
  obtain ⟨hen, rfl⟩ := h
  cases th with
  | mainT =>
    cases hm : s.mpc with
    | cond =>
      simp only [applyT, hm]
      split
      · exact ⟨hst, hab, hout, hhost, by simpa [kernDone, hm] using hdi,
          by simpa [kernDone, hm, getDev] using hdc,
          by simpa [kernDone, hm, getDev] using hdp, hwd⟩
      · exact ⟨hst, hab, hout, hhost, by simpa [kernDone, hm] using hdi,
          by simpa [kernDone, hm, getDev] using hdc,
          by simpa [kernDone, hm, getDev] using hdp, hwd⟩
    | wait =>
      simp only [applyT, hm]
      exact ⟨hst, hab, hout, hhost, by simpa [kernDone, hm] using hdi,
        by simpa [kernDone, hm, getDev] using hdc,
        by simpa [kernDone, hm, getDev] using hdp, hwd⟩
    | check =>
      simp only [applyT, hm]
      split
      · next hne => exact absurd hst hne
      · exact ⟨hst, hab, hout, hhost, by simpa [kernDone, hm] using hdi,
          by simpa [kernDone, hm, getDev] using hdc,
          by simpa [kernDone, hm, getDev] using hdp, hwd⟩
    | kernel =>
      simp only [applyT, hm]
      have hk0 : cfg.kernErr s.mi = 0 := (hsucc s.mi).2
      rw [hk0]
      simp only [ne_eq, not_true_eq_false, if_false, reduceIte]
      have hmb2 : s.mb2 = 1 - s.mi % 2 := hc.mb2_eq
      have hkd : kernDone s = s.mi := by simp [kernDone, hm]
      split
      · next hb0 =>
        -- mb2 = 0, so s.mi % 2 = 1: the kernel writes buffer 0 with
        -- tag mi + 1, and (mi + 1) % 2 = 0.
        have hmi1 : s.mi % 2 = 1 := by omega
        refine ⟨hst, hab, hout, hhost, by simp [kernDone], ?_, ?_, hwd⟩
        · intro _
          show (if (s.mi + 1) % 2 = 0 then s.mi + 1 else s.dev1) = s.mi + 1
          rw [if_pos (by omega)]
        · intro _
          show (if (s.mi + 1 + 1) % 2 = 0 then s.mi + 1 else s.dev1) =
            s.mi + 1 - 1
          rw [if_neg (by omega)]
          have := hdc (by omega)
          rw [hkd] at this
          simpa [getDev, hmi1] using this
      · next hb0 =>
        -- mb2 = 1, so s.mi % 2 = 0: the kernel writes buffer 1.
        have hmi0 : s.mi % 2 = 0 := by omega
        refine ⟨hst, hab, hout, hhost, by simp [kernDone], ?_, ?_, hwd⟩
        · intro _
          show (if (s.mi + 1) % 2 = 0 then s.dev0 else s.mi + 1) = s.mi + 1
          rw [if_neg (by omega)]
        · intro _
          show (if (s.mi + 1 + 1) % 2 = 0 then s.dev0 else s.mi + 1) =
            s.mi + 1 - 1
          rw [if_pos (by omega)]
          rcases Nat.eq_zero_or_pos s.mi with hz | hp
          · have := hdi (by omega)
            simp [this.1, hz]
          · have := hdc (by omega)
            rw [hkd] at this
            simpa [getDev, hmi0] using this
    | post =>
      simp only [applyT, hm]
      have hkd : kernDone s = s.mi + 1 := by simp [kernDone, hm]
      refine ⟨hst, hab, hout, hhost, by simp [kernDone], ?_, ?_, hwd⟩
      · intro _
        have := hdc (by omega)
        rw [hkd] at this
        show (if (s.mi + 1) % 2 = 0 then s.dev0 else s.dev1) = s.mi + 1
        simpa [getDev] using this
      · intro _
        have := hdp (by omega)
        rw [hkd] at this
        show (if (s.mi + 1 + 1) % 2 = 0 then s.dev0 else s.dev1) =
          s.mi + 1 - 1
        simpa [getDev] using this
    | join =>
      simp only [applyT, hm]
      exact ⟨hst, hab, hout, hhost, by simpa [kernDone, hm] using hdi,
        by simpa [kernDone, hm, getDev] using hdc,
        by simpa [kernDone, hm, getDev] using hdp, hwd⟩
    | done =>
      simp only [enabledT, hm, Bool.and_eq_true] at hen
      exact absurd hen.2 (by simp)
  | workT =>
    cases hw : s.wpc with
    | cond =>
      simp only [applyT, hw]
      split
      · exact ⟨hst, hab, hout, by simp, by simpa [kernDone] using hdi,
          by simpa [kernDone, getDev] using hdc,
          by simpa [kernDone, getDev] using hdp, by simp⟩
      · next hge =>
        have hwi : s.wi = cfg.numiter := by
          have := hc.wi_le
          omega
        exact ⟨hst, hab, hout, by simp, by simpa [kernDone] using hdi,
          by simpa [kernDone, getDev] using hdc,
          by simpa [kernDone, getDev] using hdp, fun _ => hwi⟩
    | wait =>
      simp only [applyT, hw]
      exact ⟨hst, hab, hout, by simp, by simpa [kernDone] using hdi,
        by simpa [kernDone, getDev] using hdc,
        by simpa [kernDone, getDev] using hdp,
        fun hh => absurd hh (by simp)⟩
    | read =>
      simp only [applyT, hw]
      have hr0 : cfg.readErr s.wi = 0 := (hsucc s.wi).1
      rw [hr0]
      simp only [ne_eq, not_true_eq_false, if_false, reduceIte]
      have htag : getDev s (s.wi % 2) = s.wi :=
        read_sees_wi hc ⟨hst, hab, hout, hhost, hdi, hdc, hdp, hwd⟩ hw
      refine ⟨hst, hab, hout, ?_, by simpa [kernDone] using hdi,
        by simpa [kernDone, getDev] using hdc,
        by simpa [kernDone, getDev] using hdp,
        fun hh => absurd hh (by simp)⟩
      intro _
      have hwb1 : s.wb1 = s.wi % 2 := hc.wb1_eq
      simp only [hwb1]
      exact htag
    | post =>
      simp only [applyT, hw]
      split
      · next hne => exact absurd hst hne
      · refine ⟨hst, hab, hout, ?_, by simpa [kernDone] using hdi,
          by simpa [kernDone, getDev] using hdc,
          by simpa [kernDone, getDev] using hdp,
          fun hh => absurd hh (by simp)⟩
        intro _
        exact hhost (by simp [hw])
    | emit =>
      simp only [applyT, hw]
      have hb : s.bufhost = s.wi := hhost (by simp [hw])
      refine ⟨hst, hab, ?_, by simp, by simpa [kernDone] using hdi,
        by simpa [kernDone, getDev] using hdc,
        by simpa [kernDone, getDev] using hdp,
        fun hh => absurd hh (by simp)⟩
      simp only [hout, hb]
      exact (List.range_succ s.wi).symm
    | done =>
      simp only [enabledT, hw, Bool.and_eq_true] at hen
      exact absurd hen.2 (by simp)

theorem reach_invData {cfg : RConfig} {j1 j2 : Nat} {s : RState}
    (hsucc : Success cfg) (h : Reach cfg (initState j1 j2) s) :
    InvData cfg j1 s := by
  induction h with
  | refl => exact invData_init cfg j1 j2
  | step hr hs ih => exact invData_step hsucc (reach_invCore hr) ih hs

end RngOcl

namespace RngCcl

/-- Program counter of the output thread `rng_out` of rng_ccl.c
(lines 115-149).  The `for (bufs->i_comm = 0; ; )` loop enters its body
directly: `read` is `ccl_buffer_enqueue_read`; `post` is
`update_and_notify(&bufs->i_comm, &mut_comm, &cond_comm)`; `chk` is
`if (bufs->err) return NULL`; `emit` is the `fwrite`/`fflush`; `endchk`
is `if (bufs->i_comm == bufs->numiter - 1) return NULL`; `wait` is
`wait_for_update(&bufs->i_comm, &bufs->i_rng, &mut_rng, &cond_rng)`,
which blocks while `i_comm > i_rng`; `done` is `return NULL`. -/
inductive CWPC where
  | read
  | post
  | chk
  | emit
  | endchk
  | wait
  | done
deriving DecidableEq

/-- Program counter of the main thread's loop of rng_ccl.c
(lines 303-334).  `cond` is `bufs.i_rng < bufs.numiter - 1`; `wait` is
`wait_for_update(&bufs.i_comm, &bufs.i_rng, &mut_comm, &cond_comm)`,
which blocks while `i_comm > i_rng`; `chk` is `HANDLE_ERROR(bufs.err)`;
`kernel` is the `rng`-kernel enqueue + `ccl_queue_finish` writing the
buffer pointed to by the local `buf_main`; `swap` is the pointer swap of
`buf_main` and the shared `bufs.bufdev`; `post` is
`update_and_notify(&bufs.i_rng, &mut_rng, &cond_rng)`; `join` is
`pthread_join`; `done` is the end of the run. -/
inductive CMPC where
  | cond
  | wait
  | chk
  | kernel
  | swap
  | post
  | join
  | done
deriving DecidableEq

/-- Run configuration of rng_ccl.c.  `readErr i` is the error code
reported by `ccl_buffer_enqueue_read` at worker iteration `i`
(`0` = success, i.e. `bufs.err` stays `NULL`). -/
structure CConfig where
  numrn : Nat
  numiter : Nat
  readErr : Nat → Nat

/-- State of the steady-state phase of `rng_ccl.c`.  Unlike the semaphore
variant, `i_rng` and `i_comm` are real shared variables of the source
(`struct bufshare`), and the device-buffer pointer `bufs.bufdev` (`sbuf`)
is shared: the worker dereferences it while the main thread swaps it. -/
structure CState where
  mpc : CMPC
  wpc : CWPC
  /-- Shared counter `bufs.i_rng`. -/
  i_rng : Nat
  /-- Shared counter `bufs.i_comm`. -/
  i_comm : Nat
  /-- Shared pointer `bufs.bufdev` (buffer index 0 or 1). -/
  sbuf : Nat
  /-- Main-local pointer `buf_main`. -/
  lm : Nat
  /-- Content tag of device buffer 0 (written by the `init` kernel). -/
  dev0 : Nat
  /-- Content tag of device buffer 1. -/
  dev1 : Nat
  /-- Content tag of the host buffer `bufs.bufhost`. -/
  bufhost : Nat
  /-- Shared error slot `bufs.err` (`none` = `NULL`). -/
  err : Option Nat
  /-- Tags emitted to stdout, in order. -/
  out : List Nat
  /-- `some e` once `exit(EXIT_FAILURE)` has run in `HANDLE_ERROR`. -/
  aborted : Option Nat
deriving DecidableEq

/-- Content of the device buffer with index `b`. -/
def getDev (s : CState) (b : Nat) : Nat :=
  if b = 0 then s.dev0 else s.dev1

/-- Initial state just after `pthread_create` (rng_ccl.c line 300): the
`init` kernel has filled the buffer pointed to by `bufs.bufdev` (index 0,
tag `0`), `buf_main` points to the other buffer, both counters are 0. -/
def initState (j1 j2 : Nat) : CState where
  mpc := .cond
  wpc := .read
  i_rng := 0
  i_comm := 0
  sbuf := 0
  lm := 1
  dev0 := 0
  dev1 := j1
  bufhost := j2
  err := none
  out := []
  aborted := none

/-- Whether thread `th` can take a step from state `s`.  A thread inside
`wait_for_update` is blocked exactly while `i_comm > i_rng` (both call
sites pass the counters in this same order); `pthread_join` blocks until
the worker has returned. -/
def enabledT (th : Thread) (s : CState) : Bool :=
  s.aborted = none &&
    match th with
    | .mainT =>
      match s.mpc with
      | .cond => true
      | .wait => s.i_comm ≤ s.i_rng
      | .chk => true
      | .kernel => true
      | .swap => true
      | .post => true
      | .join => s.wpc = .done
      | .done => false
    | .workT =>
      match s.wpc with
      | .read => true
      | .post => true
      | .chk => true
      | .emit => true
      | .endchk => true
      | .wait => s.i_comm ≤ s.i_rng
      | .done => false

/-- Effect of one step of thread `th` from state `s`. -/
def applyT (cfg : CConfig) (th : Thread) (s : CState) : CState :=
  match th with
  | .mainT =>
    match s.mpc with
    | .cond =>
      if s.i_rng < uintPred cfg.numiter then { s with mpc := .wait }
      else { s with mpc := .join }
    | .wait => { s with mpc := .chk }
    | .chk =>
      match s.err with
      | some e => { s with aborted := some e }
      | none => { s with mpc := .kernel }
    | .kernel =>
      if s.lm = 0 then { s with dev0 := s.i_rng + 1, mpc := .swap }
      else { s with dev1 := s.i_rng + 1, mpc := .swap }
    | .swap => { s with sbuf := s.lm, lm := s.sbuf, mpc := .post }
    | .post => { s with i_rng := s.i_rng + 1, mpc := .cond }
    | .join => { s with mpc := .done }
    | .done => s
  | .workT =>
    match s.wpc with
    | .read =>
      if cfg.readErr s.i_comm = 0 then
        { s with bufhost := getDev s s.sbuf, wpc := .post }
      else { s with err := some (cfg.readErr s.i_comm), wpc := .post }
    | .post => { s with i_comm := s.i_comm + 1, wpc := .chk }
    | .chk =>
      match s.err with
      | some _ => { s with wpc := .done }
      | none => { s with wpc := .emit }
    | .emit => { s with out := s.out ++ [s.bufhost], wpc := .endchk }
    | .endchk =>
      if s.i_comm = uintPred cfg.numiter then { s with wpc := .done }
      else { s with wpc := .wait }
    | .wait => { s with wpc := .read }
    | .done => s

/-- Total step function: a disabled thread makes no progress. -/
def stepT (cfg : CConfig) (th : Thread) (s : CState) : CState :=
  if enabledT th s then applyT cfg th s else s

/-- One interleaving step of the two-thread system. -/
def Step (cfg : CConfig) (th : Thread) (s s' : CState) : Prop :=
  enabledT th s = true ∧ s' = applyT cfg th s

/-- States reachable from `s0` by interleaving steps of the two threads. -/
inductive Reach (cfg : CConfig) (s0 : CState) : CState → Prop where
  | refl : Reach cfg s0 s0
  | step {s s' : CState} {th : Thread} :
      Reach cfg s0 s → Step cfg th s s' → Reach cfg s0 s'

/-- Run a concrete schedule; disabled threads no-op. -/
def exec (cfg : CConfig) (sched : List Thread) (s : CState) : CState :=
  sched.foldl (fun s th => stepT cfg th s) s

/-- A state with no enabled step in either thread. -/
def Terminal (s : CState) : Prop :=
  enabledT .mainT s = false ∧ enabledT .workT s = false

theorem cstepT_eq_or_step (cfg : CConfig) (th : Thread) (s : CState) :
    stepT cfg th s = s ∨ Step cfg th s (stepT cfg th s) := by
  by_cases h : enabledT th s = true
  · exact Or.inr ⟨h, by simp [stepT, h]⟩
  · exact Or.inl (by simp [stepT, h])

theorem creach_exec (cfg : CConfig) (sched : List Thread) {s0 s : CState}
    (h : Reach cfg s0 s) : Reach cfg s0 (exec cfg sched s) := by
  induction sched generalizing s with
  | nil => exact h
  | cons th rest ih =>
    have : Reach cfg s0 (stepT cfg th s) := by
      rcases cstepT_eq_or_step cfg th s with he | hs
      · rwa [he]
      · exact .step h hs
    exact ih this

end RngCcl

namespace CParse

/-- C `isspace` in the default locale. -/
def isSpaceC (c : Char) : Bool :=
  c = ' ' || c = '\t' || c = '\n' || c = '\x0b' || c = '\x0c' || c = '\r'

/-- Value of a list of decimal digit characters. -/
def numVal (ds : List Char) : Nat :=
  ds.foldl (fun a c => a * 10 + (c.toNat - 48)) 0

/-- Model of C `atoi`: skip leading whitespace, an optional single sign,
then a maximal run of decimal digits; `0` when no digit follows.
(Overflow of `int` is undefined behaviour and is not modelled; all inputs
considered here are small.)  Used by rng_ocl.c lines 214/226 and
rng_ccl.c lines 194/206. -/
def atoi (str : String) : Int :=
  let cs := str.toList.dropWhile isSpaceC
  match cs with
  | '-' :: rest => -(numVal (rest.takeWhile Char.isDigit))
  | '+' :: rest => numVal (rest.takeWhile Char.isDigit)
  | _ => numVal (cs.takeWhile Char.isDigit)

/-- Conversion of an `int` value to `cl_uint`/`unsigned int` (reduction
modulo `2 ^ 32`, as the C standard defines for unsigned targets). -/
def toU32 (z : Int) : Nat :=
  (z % 4294967296).toNat

/-- Model of the argument handling of `main` (rng_ocl.c lines 211-230,
identically rng_ccl.c lines 191-210): `args` is `argv[1..]`; the first
argument, parsed with `atoi` and converted to `cl_uint`, becomes
`bufs.numrn` (default 16777216 = `NUMRN_DEFAULT`); the second becomes
`bufs.numiter` (default 10000 = `NUMITER_DEFAULT`).  No validation of any
kind is performed. -/
def parseArgs (args : List String) : Nat × Nat :=
  match args with
  | [] => (16777216, 10000)
  | [a] => (toU32 (atoi a), 10000)
  | a :: b :: _ => (toU32 (atoi a), toU32 (atoi b))

/-- One `%6d` conversion of `sscanf`: skip whitespace, then read at most
6 characters forming an optional sign followed by decimal digits; fail
when no digit is read.  Returns the value and the unconsumed rest. -/
def scanInt6 (cs : List Char) : Option (Int × List Char) :=
  let cs1 := cs.dropWhile isSpaceC
  match cs1 with
  | '-' :: rest =>
    let ds := (rest.takeWhile Char.isDigit).take 5
    if ds = [] then none else some (-(numVal ds), rest.drop ds.length)
  | '+' :: rest =>
    let ds := (rest.takeWhile Char.isDigit).take 5
    if ds = [] then none else some (numVal ds, rest.drop ds.length)
  | _ =>
    let ds := (cs1.takeWhile Char.isDigit).take 6
    if ds = [] then none else some (numVal ds, cs1.drop ds.length)

/-- Model of `sscanf(in, "%6d,%6d", &out[0], &out[1])` as used by
`ccl_ex_parse_pairs` (src/examples_common.in.h lines 50-63): the first
component is the number of successful conversions, the other two are the
stored values.  The literal `','` of the format must match the next
input character exactly (no whitespace skip); on a mismatch `sscanf`
stops and returns the number of conversions made so far. -/
def sscanfPairs (str : String) : Nat × Option Int × Option Int :=
  match scanInt6 str.toList with
  | none => (0, none, none)
  | some (v0, rest) =>
    match rest with
    | ',' :: rest2 =>
      match scanInt6 rest2 with
      | none => (1, some v0, none)
      | some (v1, _) => (2, some v0, some v1)
    | _ => (1, some v0, none)

/-- Model of the macro `ccl_ex_parse_pairs`
(src/examples_common.in.h lines 50-63): returns TRUE exactly when the
`sscanf` call reports two successful conversions. -/
def ccl_ex_parse_pairs (str : String) : Bool :=
  (sscanfPairs str).1 = 2

end CParse

namespace RngOcl

/-- Default configuration: no command-line arguments, all external
operations succeed (`NUMRN_DEFAULT`, `NUMITER_DEFAULT`). -/
def cfgDefault : RConfig :=
  ⟨16777216, 10000, fun _ => 0, fun _ => 0, fun _ => true⟩

/-- One iteration, all external operations succeed. -/
def cfgOne : RConfig := ⟨16777216, 1, fun _ => 0, fun _ => 0, fun _ => true⟩

/-- Zero iterations, all external operations succeed. -/
def cfgZero : RConfig := ⟨16777216, 0, fun _ => 0, fun _ => 0, fun _ => true⟩

/-- Five iterations; the device-to-host transfer of worker iteration 1
fails with error code 9; everything else succeeds. -/
def cfgRead5 : RConfig :=
  ⟨16777216, 5, fun i => if i = 1 then 9 else 0, fun _ => 0, fun _ => true⟩

/-- Five iterations; the `rng` kernel of main-loop iteration 0 fails with
error code 7; everything else succeeds. -/
def cfgKern5 : RConfig :=
  ⟨16777216, 5, fun _ => 0, fun i => if i = 0 then 7 else 0, fun _ => true⟩

/-- Five iterations; the `fwrite` to the sink fails at worker iteration 1
(a fact the code never inspects); everything else succeeds. -/
def cfgSink5 : RConfig :=
  ⟨16777216, 5, fun _ => 0, fun _ => 0, fun i => decide (i ≠ 1)⟩

/-- Total bytes written to stdout: each emit writes
`numrn * sizeof(cl_ulong)` bytes (rng_ocl.c line 125). -/
def emittedBytes (cfg : RConfig) (s : RState) : Nat :=
  8 * cfg.numrn * s.out.length

/-- The spec's buffer-slot function: `slot(i) = i mod 2`. -/
def slot (i : Nat) : Nat := i % 2

theorem waitsR_ge_icomm (s : RState) : s.i_comm ≤ waitsR s := by
  unfold waitsR; cases s.wpc <;> simp

theorem waitsC_ge_mi (s : RState) : s.mi ≤ waitsC s := by
  unfold waitsC; cases s.mpc <;> simp

/-- Rank of the main thread's program counter along its control flow. -/
def mrank : MPC → Nat
  | .cond => 5
  | .wait => 4
  | .check => 3
  | .kernel => 2
  | .post => 1
  | .join => 4
  | .done => 0

/-- Rank of the worker's program counter along its control flow. -/
def wrank : WPC → Nat
  | .cond => 5
  | .wait => 4
  | .read => 3
  | .post => 2
  | .emit => 1
  | .done => 0

/-- Termination measure of the two-thread system: strictly decreases
along every step taken from a state satisfying the core invariant, so no
execution can take infinitely many steps. -/
def fuel (cfg : RConfig) (s : RState) : Nat :=
  (if s.aborted = none then 1 else 0) *
      (10 * uintPred cfg.numiter + 10 * cfg.numiter + 100) +
    ((uintPred cfg.numiter - s.mi) * 10 + mrank s.mpc) +
    ((cfg.numiter - s.wi) * 10 + wrank s.wpc)

theorem fuel_decreases {cfg : RConfig} {th : Thread} {s s' : RState}
    (hc : InvCore cfg s) (h : Step cfg th s s') :
    fuel cfg s' < fuel cfg s := by
  obtain ⟨hen, rfl⟩ := h
  have hab : s.aborted = none := by
    simp only [enabledT, Bool.and_eq_true, decide_eq_true_eq] at hen
    exact hen.1
  cases th with
  | mainT =>
    cases hm : s.mpc with
    | cond =>
      simp only [applyT, hm]
      split <;> simp [fuel, mrank, hab, hm]
    | wait => simp [applyT, hm, fuel, mrank, hab]
    | check =>
      simp only [applyT, hm]
      split
      · simp [fuel, mrank, hab, hm]
      · simp [fuel, mrank, hab, hm]
    | kernel =>
      simp only [applyT, hm]
      split
      · simp [fuel, mrank, hab, hm]
      · split <;> simp [fuel, mrank, hab, hm]
    | post =>
      have hlt : s.mi < uintPred cfg.numiter := hc.mi_lt (by simp [hm])
      simp only [applyT, hm]
      simp [fuel, mrank, hab, hm]
      omega
    | join => simp [applyT, hm, fuel, mrank, hab]
    | done =>
      simp only [enabledT, hm, Bool.and_eq_true] at hen
      exact absurd hen.2 (by simp)
  | workT =>
    cases hw : s.wpc with
    | cond =>
      simp only [applyT, hw]
      split <;> simp [fuel, wrank, hab, hw]
    | wait => simp [applyT, hw, fuel, wrank, hab]
    | read =>
      simp only [applyT, hw]
      split <;> simp [fuel, wrank, hab, hw]
    | post =>
      simp only [applyT, hw]
      split <;> simp [fuel, wrank, hab, hw]
    | emit =>
      have hlt : s.wi < cfg.numiter := hc.wi_lt (by simp [hw])
      simp only [applyT, hw]
      simp [fuel, wrank, hab, hw]
      omega
    | done =>
      simp only [enabledT, hw, Bool.and_eq_true] at hen
      exact absurd hen.2 (by simp)

/-- Scenario invariant for `cfgRead5` (transfer failure at worker
iteration 1 of a 5-iteration run): the failure is recorded in
`bufs.status`, the consumed-signal is still raised (`i_comm` reaches 2),
the worker exits its loop right away (so at most the single emit of
iteration 0 ever happens), and the main thread can complete at most the
two loop iterations 0 and 1 before `HANDLE_ERROR(bufs.status)` exits the
process with the transfer's error. -/
structure InvRead5 (s : RState) : Prop where
  st : s.status = 0 ∨ s.status = 9
  st9 : s.status = 9 ↔ s.wi = 1 ∧ (s.wpc = .post ∨ s.wpc = .done)
  wle : s.wi ≤ 1
  wemit : s.wpc = .emit → s.wi = 0
  wdone9 : s.wpc = .done → s.wi = 1 ∧ s.status = 9 ∧ s.i_comm = 2
  ab : ∀ r, s.aborted = some r → r = .commFail 9
  mle : s.mi ≤ 2
  mkp : s.mpc = .kernel ∨ s.mpc = .post → s.mi ≤ 1

theorem invRead5_init (j1 j2 : Nat) : InvRead5 (initState j1 j2) := by
  constructor <;> simp [initState]

theorem invRead5_step {th : Thread} {s s' : RState} (hc : InvCore cfgRead5 s)
    (hd : InvRead5 s) (h : Step cfgRead5 th s s') : InvRead5 s' := by
  obtain ⟨hst, hst9, hwle, hwem, hwd9, hab, hmle, hmk⟩ := hd
  obtain ⟨hen, rfl⟩ := h
  cases th with
  | mainT =>
    cases hm : s.mpc with
    | cond =>
      simp only [applyT, hm]
      split
      · exact ⟨hst, by simpa using hst9, hwle, hwem, hwd9, hab, hmle, by simp⟩
      · exact ⟨hst, by simpa using hst9, hwle, hwem, hwd9, hab, hmle, by simp⟩
    | wait =>
      simp only [applyT, hm]
      exact ⟨hst, by simpa using hst9, hwle, hwem, hwd9, hab, hmle, by simp⟩
    | check =>
      simp only [applyT, hm]
      split
      · next hne =>
        have h9 : s.status = 9 := by omega
        refine ⟨hst, by simpa using hst9, hwle, hwem, hwd9, ?_, hmle, ?_⟩
        · intro r hr
          simp at hr
          simp [← hr, h9]
        · intro hh
          exact hmk (by simpa using hh)
      · next heq =>
        have h0 : s.status = 0 := by omega
        refine ⟨hst, by simpa using hst9, hwle, hwem, hwd9, hab, hmle, ?_⟩
        intro _
        show s.mi ≤ 1
        by_contra hmi
        have hmi2 : s.mi = 2 := by omega
        have hsc := hc.semc
        have hwc : waitsC s = s.mi + 1 := by simp [waitsC, hm]
        have hicub : 2 ≤ s.i_comm := by omega
        cases hw : s.wpc with
        | emit =>
          have := hc.icomm_emit hw
          have := hwem hw
          omega
        | done =>
          have := hwd9 hw
          omega
        | cond => have := hc.icomm_mid (by simp [hw]) (by simp [hw]); omega
        | wait => have := hc.icomm_mid (by simp [hw]) (by simp [hw]); omega
        | read => have := hc.icomm_mid (by simp [hw]) (by simp [hw]); omega
        | post => have := hc.icomm_mid (by simp [hw]) (by simp [hw]); omega
    | kernel =>
      simp only [applyT, hm]
      have hk : cfgRead5.kernErr s.mi = 0 := rfl
      rw [hk]
      simp only [ne_eq, not_true_eq_false, if_false, reduceIte]
      have hm1 : s.mi ≤ 1 := hmk (by simp [hm])
      split
      · exact ⟨hst, by simpa using hst9, hwle, hwem, hwd9, hab, hmle,
          fun _ => hm1⟩
      · exact ⟨hst, by simpa using hst9, hwle, hwem, hwd9, hab, hmle,
          fun _ => hm1⟩
    | post =>
      simp only [applyT, hm]
      have hm1 : s.mi ≤ 1 := hmk (by simp [hm])
      exact ⟨hst, by simpa using hst9, hwle, hwem, hwd9, hab,
        by simp only; omega, by simp⟩
    | join =>
      simp only [applyT, hm]
      exact ⟨hst, by simpa using hst9, hwle, hwem, hwd9, hab, hmle, by simp⟩
    | done =>
      simp only [enabledT, hm, Bool.and_eq_true] at hen
      exact absurd hen.2 (by simp)
  | workT =>
    have hs0aux : s.wpc = .cond ∨ s.wpc = .wait ∨ s.wpc = .emit →
        s.status = 0 := by
      intro hw
      rcases hst with h | h
      · exact h
      · exfalso
        rcases (hst9.mp h).2 with hp | hp <;> rcases hw with h1 | h1 | h1 <;>
          simp [h1] at hp
    cases hw : s.wpc with
    | cond =>
      have hs0 : s.status = 0 := hs0aux (by simp [hw])
      simp only [applyT, hw]
      split
      · exact ⟨hst, by simp [hs0], hwle, by simp, by simp, hab, hmle, hmk⟩
      · next hge =>
        exfalso
        have : s.wi < cfgRead5.numiter := by
          show s.wi < 5
          omega
        exact hge this
    | wait =>
      have hs0 : s.status = 0 := hs0aux (by simp [hw])
      simp only [applyT, hw]
      exact ⟨hst, by simp [hs0], hwle, by simp, by simp, hab, hmle, hmk⟩
    | read =>
      have hs0 : s.status = 0 := by
        rcases hst with h | h
        · exact h
        · exfalso
          rcases (hst9.mp h).2 with hp | hp <;> simp [hw] at hp
      simp only [applyT, hw]
      rcases Nat.lt_or_ge s.wi 1 with hwi | hwi
      · have hwi0 : s.wi = 0 := by omega
        have hre : cfgRead5.readErr s.wi = 0 := by simp [cfgRead5, hwi0]
        rw [hre]
        simp only [ne_eq, not_true_eq_false, if_false, reduceIte]
        exact ⟨hst, by simp [hs0, hwi0], hwle, by simp, by simp, hab,
          hmle, hmk⟩
      · have hwi1 : s.wi = 1 := by omega
        have hre : cfgRead5.readErr s.wi = 9 := by simp [cfgRead5, hwi1]
        rw [hre]
        simp only [ne_eq, OfNat.ofNat_ne_zero, not_false_eq_true, if_true,
          reduceIte]
        exact ⟨by simp, by simp [hwi1], hwle, by simp, by simp, hab,
          hmle, hmk⟩
    | post =>
      simp only [applyT, hw]
      have hic : s.i_comm = s.wi := hc.icomm_mid (by simp [hw]) (by simp [hw])
      split
      · next hne =>
        have h9 : s.status = 9 := by omega
        have hw1 : s.wi = 1 := (hst9.mp h9).1
        exact ⟨hst, by simp [h9, hw1], hwle, by simp,
          fun _ => by simp only; omega, hab, hmle, hmk⟩
      · next heq =>
        have h0 : s.status = 0 := by omega
        have hw0 : s.wi = 0 := by
          by_contra hne
          have hw1 : s.wi = 1 := by omega
          exact absurd (hst9.mpr ⟨hw1, Or.inl hw⟩) (by omega)
        exact ⟨hst, by simp [h0], hwle, fun _ => hw0, by simp, hab,
          hmle, hmk⟩
    | emit =>
      have hs0 : s.status = 0 := hs0aux (by simp [hw])
      have hw0 : s.wi = 0 := hwem hw
      simp only [applyT, hw]
      exact ⟨hst, by simp [hs0], by simp only; omega, by simp, by simp,
        hab, hmle, hmk⟩
    | done =>
      simp only [enabledT, hw, Bool.and_eq_true] at hen
      exact absurd hen.2 (by simp)

theorem reach_invRead5 {j1 j2 : Nat} {s : RState}
    (h : Reach cfgRead5 (initState j1 j2) s) : InvRead5 s := by
  induction h with
  | refl => exact invRead5_init j1 j2
  | step hr hs ih => exact invRead5_step (reach_invCore hr) ih hs

/-- Scenario invariant for `cfgKern5` (kernel failure at main iteration 0
of a 5-iteration run): `HANDLE_ERROR` exits the whole process at the very
first kernel invocation, so the main thread never reaches its
`sem_post(&sem_rng)` (`i_rng` stays 0), nothing is ever recorded in the
shared error slot `bufs.status`, and the worker — which never observes
any error — is still mid-run when the process exits. -/
structure InvKern5 (s : RState) : Prop where
  mi0 : s.mi = 0
  mset : s.mpc = .cond ∨ s.mpc = .wait ∨ s.mpc = .check ∨ s.mpc = .kernel
  st0 : s.status = 0
  ab : ∀ r, s.aborted = some r → r = .kernelFail 7
  wle : s.wi ≤ 1
  wnd : s.wpc ≠ .done
  wzero : s.wpc = .read ∨ s.wpc = .post ∨ s.wpc = .emit → s.wi = 0

theorem invKern5_init (j1 j2 : Nat) : InvKern5 (initState j1 j2) := by
  constructor <;> simp [initState]

theorem invKern5_step {th : Thread} {s s' : RState} (hc : InvCore cfgKern5 s)
    (hd : InvKern5 s) (h : Step cfgKern5 th s s') : InvKern5 s' := by
  obtain ⟨hmi0, hms, hst0, hab, hwle, hwnd, hwz⟩ := hd
  obtain ⟨hen, rfl⟩ := h
  cases th with
  | mainT =>
    cases hm : s.mpc with
    | cond =>
      simp only [applyT, hm]
      split
      · exact ⟨hmi0, by simp, hst0, hab, hwle, hwnd, hwz⟩
      · next hge =>
        exfalso
        have : s.mi < uintPred cfgKern5.numiter := by
          show s.mi < uintPred 5
          unfold uintPred
          omega
        exact hge this
    | wait =>
      simp only [applyT, hm]
      exact ⟨hmi0, by simp, hst0, hab, hwle, hwnd, hwz⟩
    | check =>
      simp only [applyT, hm]
      split
      · next hne => exact absurd hst0 hne
      · exact ⟨hmi0, by simp, hst0, hab, hwle, hwnd, hwz⟩
    | kernel =>
      simp only [applyT, hm]
      have hke : cfgKern5.kernErr s.mi = 7 := by simp [cfgKern5, hmi0]
      rw [hke]
      simp only [ne_eq, OfNat.ofNat_ne_zero, not_false_eq_true, if_true,
        reduceIte]
      refine ⟨hmi0, by simp [hm], hst0, ?_, hwle, hwnd, hwz⟩
      intro r hr
      simp at hr
      exact hr.symm
    | post =>
      exfalso
      rcases hms with h | h | h | h <;> simp [hm] at h
    | join =>
      exfalso
      rcases hms with h | h | h | h <;> simp [hm] at h
    | done =>
      exfalso
      rcases hms with h | h | h | h <;> simp [hm] at h
  | workT =>
    cases hw : s.wpc with
    | cond =>
      simp only [applyT, hw]
      split
      · exact ⟨hmi0, hms, hst0, hab, hwle, by simp, by simp⟩
      · next hge =>
        exfalso
        have : s.wi < cfgKern5.numiter := by
          show s.wi < 5
          omega
        exact hge this
    | wait =>
      simp only [applyT, hw]
      simp only [enabledT, hw, Bool.and_eq_true, decide_eq_true_eq] at hen
      have hsr := hc.semr
      have hwR : waitsR s = s.i_comm := by simp [waitsR, hw]
      have hic : s.i_comm = s.wi := hc.icomm_mid (by simp [hw]) (by simp [hw])
      have hirng : s.i_rng = s.mi := hc.irng_eq
      have hwi0 : s.wi = 0 := by omega
      exact ⟨hmi0, hms, hst0, hab, hwle, by simp, fun _ => hwi0⟩
    | read =>
      simp only [applyT, hw]
      have hwi0 : s.wi = 0 := hwz (by simp [hw])
      have hre : cfgKern5.readErr s.wi = 0 := rfl
      rw [hre]
      simp only [ne_eq, not_true_eq_false, if_false, reduceIte]
      exact ⟨hmi0, hms, hst0, hab, hwle, by simp, fun _ => hwi0⟩
    | post =>
      simp only [applyT, hw]
      have hwi0 : s.wi = 0 := hwz (by simp [hw])
      split
      · next hne => exact absurd hst0 hne
      · exact ⟨hmi0, hms, hst0, hab, hwle, by simp, fun _ => hwi0⟩
    | emit =>
      simp only [applyT, hw]
      have hwi0 : s.wi = 0 := hwz (by simp [hw])
      refine ⟨hmi0, hms, hst0, hab, by simp only; omega, by simp, by simp⟩
    | done => exact absurd hw hwnd

theorem reach_invKern5 {j1 j2 : Nat} {s : RState}
    (h : Reach cfgKern5 (initState j1 j2) s) : InvKern5 s := by
  induction h with
  | refl => exact invKern5_init j1 j2
  | step hr hs ih => exact invKern5_step (reach_invCore hr) ih hs

end RngOcl

/-- The rng_ocl run configuration resulting from command-line arguments
`args` (`argv[1..]`), with all external operations succeeding. -/
def cfgOfArgs (args : List String) : RngOcl.RConfig :=
  ⟨(CParse.parseArgs args).1, (CParse.parseArgs args).2,
   fun _ => 0, fun _ => 0, fun _ => true⟩

/-- 3-iteration configuration of rng_ccl.c, no external failures. -/
def cclCfg3 : RngCcl.CConfig := ⟨16777216, 3, fun _ => 0⟩

/-- 1-iteration configuration of rng_ccl.c, no external failures. -/
def cclCfg1 : RngCcl.CConfig := ⟨16777216, 1, fun _ => 0⟩

/-- One full worker-loop iteration of the rng_ocl model. -/
def wIter : List Thread := [.workT, .workT, .workT, .workT, .workT]

/-- One full main-loop iteration of the rng_ocl model. -/
def mIter : List Thread := [.mainT, .mainT, .mainT, .mainT, .mainT]

/-- Schedule of a complete 5-iteration rng_ocl run: the two loops
alternate, then the worker exits its loop and the main thread joins. -/
def schedFive : List Thread :=
  wIter ++ mIter ++ wIter ++ mIter ++ wIter ++ mIter ++ wIter ++ mIter ++
    wIter ++ [.workT, .mainT, .mainT]

/-- Schedule reaching the aborted state of the `cfgRead5` scenario:
worker iteration 0 and main iteration 0 complete, the worker's read of
iteration 1 fails and the worker exits, the main thread observes
`bufs.status` at its next check and exits the process. -/
def schedRead5 : List Thread :=
  wIter ++ mIter ++ [.workT, .workT, .workT, .workT, .mainT, .mainT, .mainT]

/-- Schedule reaching the aborted state of the `cfgKern5` scenario: the
main thread fails at its very first kernel invocation. -/
def schedKern5 : List Thread := [.mainT, .mainT, .mainT, .mainT]

/-- Schedule of the `numiter = 0` run of rng_ocl: the worker exits
immediately, the main thread (whose loop bound underflowed) runs one full
loop iteration and then blocks forever in `sem_wait(&sem_comm)`. -/
def schedZero : List Thread :=
  [.workT, .mainT, .mainT, .mainT, .mainT, .mainT, .mainT]

/-- Schedule of a complete 1-iteration rng_ocl run. -/
def schedOne : List Thread :=
  [.mainT] ++ wIter ++ [.workT, .mainT]

/-- Four worker steps (one read, up to the consumed-signal post). -/
def wsched4 : List Thread := [.workT, .workT, .workT, .workT]

/-- Schedule for rng_ccl with 3 iterations in which the main thread runs
both of its loop iterations before the worker is ever scheduled,
swapping the shared buffer pointer under it. -/
def schedCclMainFirst : List Thread :=
  List.replicate 13 Thread.mainT ++ List.replicate 11 Thread.workT ++
    [Thread.mainT]

/-- Schedule driving the 1-iteration rng_ccl run into its deadlock:
the worker emits once and then waits forever on `cond_rng`, the main
thread goes straight to `pthread_join`. -/
def schedCclDead : List Thread :=
  [.workT, .workT, .workT, .workT, .workT, .mainT]

/-- C1, counterexample.  The claimed invariant
`i_output ≤ i_compute ≤ i_output + 1` fails on the code: in rng_ccl.c
(whose shared counters `i_comm` / `i_rng` are exactly the output and
compute iteration counters) the output thread performs its first read
and increments `i_comm` to 1 while `i_rng` is still 0 — a reachable
steady-state instant of a 3-iteration run with `i_output > i_compute`. -/
theorem claim_c1_counterexample :
    ¬ (∀ s : RngCcl.CState, RngCcl.Reach cclCfg3 (RngCcl.initState 0 0) s →
        s.i_comm ≤ s.i_rng ∧ s.i_rng ≤ s.i_comm + 1) := by
  intro h
  have hr : RngCcl.Reach cclCfg3 (RngCcl.initState 0 0)
      (RngCcl.exec cclCfg3 [Thread.workT, Thread.workT]
        (RngCcl.initState 0 0)) :=
    RngCcl.creach_exec cclCfg3 _ RngCcl.Reach.refl
  have hcc := (h _ hr).1
  have h1 : (RngCcl.exec cclCfg3 [Thread.workT, Thread.workT]
      (RngCcl.initState 0 0)).i_comm = 1 := by decide
  have h2 : (RngCcl.exec cclCfg3 [Thread.workT, Thread.workT]
      (RngCcl.initState 0 0)).i_rng = 0 := by decide
  omega

/-- C1, amended.  In the semaphore variant rng_ocl.c the skew bound
holds two-sidedly at every reachable instant of every run (any iteration
count, any oracle outcomes): the compute counter `i_rng` and the output
counter `i_comm` never differ by more than one in either direction.  The
one-sided `i_output ≤ i_compute` of the original claim is refuted by
`claim_c1_counterexample`: the initial slack of both semaphores lets
either stage get one step ahead of the other. -/
theorem claim_c1_skew_bound (cfg : RngOcl.RConfig) (j1 j2 : Nat)
    (s : RngOcl.RState) (h : RngOcl.Reach cfg (RngOcl.initState j1 j2) s) :
    s.i_comm ≤ s.i_rng + 1 ∧ s.i_rng ≤ s.i_comm + 1 := by
  have hc := RngOcl.reach_invCore h
  have h1 := hc.semr
  have h2 := hc.semc
  have h3 := RngOcl.waitsR_ge_icomm s
  have h4 := RngOcl.waitsC_ge_mi s
  have h5 := hc.irng_eq
  omega

/-- C1, witness: the skew bound instantiated at the initial state of a
default run. -/
theorem claim_c1_witness :
    (RngOcl.initState 0 0).i_comm ≤ (RngOcl.initState 0 0).i_rng + 1 ∧
    (RngOcl.initState 0 0).i_rng ≤ (RngOcl.initState 0 0).i_comm + 1 :=
  claim_c1_skew_bound RngOcl.cfgDefault 0 0 (RngOcl.initState 0 0)
    RngOcl.Reach.refl

/-- C2, counterexample.  In rng_ccl.c a 3-iteration run can complete
without any error having emitted `[2, 2]` — two emits instead of three,
of the wrong buffer contents — because the worker's exit test
`i_comm == numiter - 1` runs after the increment (so only `numiter - 1`
emits ever happen) and the main thread's wait condition
(`while i_comm > i_rng`) never blocks it, letting it swap the shared
buffer pointer before the worker's first read. -/
theorem claim_c2_counterexample :
    ¬ (∀ s : RngCcl.CState, RngCcl.Reach cclCfg3 (RngCcl.initState 0 0) s →
        s.mpc = RngCcl.CMPC.done → s.aborted = none →
        s.out = List.range 3) := by
  intro h
  have hr : RngCcl.Reach cclCfg3 (RngCcl.initState 0 0)
      (RngCcl.exec cclCfg3 schedCclMainFirst (RngCcl.initState 0 0)) :=
    RngCcl.creach_exec cclCfg3 _ RngCcl.Reach.refl
  have hc := h _ hr (by decide) (by decide)
  have h1 : (RngCcl.exec cclCfg3 schedCclMainFirst
      (RngCcl.initState 0 0)).out = [2, 2] := by decide
  rw [h1] at hc
  exact absurd hc (by decide)

/-- C2, amended.  For the semaphore variant rng_ocl.c the claim holds:
in every run with `numrn ≥ 1` and `numiter ≥ 1` in which all transfers
and kernels succeed and the main thread terminates, the bytes emitted to
stdout are exactly the `numiter` buffer contents in iteration order
(tags `0, 1, …, numiter - 1`, no framing or separators), for a total of
`numrn * 8 * numiter` bytes — regardless of interleaving.  The
cond-variable variant rng_ccl.c violates this
(`claim_c2_counterexample`). -/
theorem claim_c2_output_stream (cfg : RngOcl.RConfig) (j1 j2 : Nat)
    (s : RngOcl.RState) (hsucc : RngOcl.Success cfg)
    (hn : 1 ≤ cfg.numrn) (ht : 1 ≤ cfg.numiter)
    (h : RngOcl.Reach cfg (RngOcl.initState j1 j2) s)
    (hdone : s.mpc = RngOcl.MPC.done) :
    s.out = List.range cfg.numiter ∧
    RngOcl.emittedBytes cfg s = cfg.numrn * 8 * cfg.numiter := by
  have hc := RngOcl.reach_invCore h
  have hd := RngOcl.reach_invData hsucc h
  have hw : s.wpc = RngOcl.WPC.done := hc.mdone hdone
  have hwi : s.wi = cfg.numiter := hd.wdone hw
  constructor
  · rw [hd.out_eq, hwi]
  · unfold RngOcl.emittedBytes
    rw [hd.out_eq, hwi, List.length_range]
    ring

/-- C2, witness: a complete 1-iteration run of the semaphore variant
emits exactly the initialized buffer, `numrn * 8` bytes. -/
theorem claim_c2_witness :
    (RngOcl.exec RngOcl.cfgOne schedOne (RngOcl.initState 0 0)).out =
      List.range 1 ∧
    RngOcl.emittedBytes RngOcl.cfgOne
      (RngOcl.exec RngOcl.cfgOne schedOne (RngOcl.initState 0 0)) =
      16777216 * 8 * 1 :=
  claim_c2_output_stream RngOcl.cfgOne 0 0 _ (fun _ => ⟨rfl, rfl⟩)
    (by decide) (by decide)
    (RngOcl.reach_exec RngOcl.cfgOne schedOne RngOcl.Reach.refl)
    (by decide)

/-- C3, counterexample.  The code never inspects the result of `fwrite`:
if the sink fails to emit at iteration 1 of a 5-iteration run, the run
still completes normally with all 5 emits attempted and no error
surfaced anywhere — contradicting the claim that the worker records the
sink's error, stops emitting, and that the sink's error is surfaced. -/
theorem claim_c3_counterexample :
    ¬ (∀ s : RngOcl.RState,
        RngOcl.Reach RngOcl.cfgSink5 (RngOcl.initState 0 0) s →
        s.mpc = RngOcl.MPC.done →
        s.out.length ≤ 2 ∧ s.status ≠ 0) := by
  intro h
  have hr : RngOcl.Reach RngOcl.cfgSink5 (RngOcl.initState 0 0)
      (RngOcl.exec RngOcl.cfgSink5 schedFive (RngOcl.initState 0 0)) :=
    RngOcl.reach_exec RngOcl.cfgSink5 _ RngOcl.Reach.refl
  have hc := h _ hr (by decide)
  have h1 : (RngOcl.exec RngOcl.cfgSink5 schedFive
      (RngOcl.initState 0 0)).out.length = 5 := by decide
  omega

/-- C3, amended.  Only transfer (device-to-host read) failures are
handled by the worker: in the 5-iteration run whose read fails at
iteration 1 with code 9, at every reachable instant at most the single
emit of iteration 0 has happened, the driver completes at most one
additional compute unit (`i_rng ≤ 2`), and when the worker has exited
its loop it has recorded the error in `bufs.status`, raised the
consumed-signal for the failing iteration (`i_comm = 2`), and performed
no further emits; any process exit surfaces exactly the transfer's
error.  Sink (`fwrite`) failures are ignored entirely: the transition
function does not depend on the sink oracle at all (last conjunct), so
no emit failure is ever recorded or stops the loop
(`claim_c3_counterexample`). -/
theorem claim_c3_transfer_failure (j1 j2 : Nat) (s : RngOcl.RState)
    (h : RngOcl.Reach RngOcl.cfgRead5 (RngOcl.initState j1 j2) s) :
    s.out.length ≤ 1 ∧ s.i_rng ≤ 2 ∧
    (s.wpc = RngOcl.WPC.done →
      s.status = 9 ∧ s.i_comm = 2 ∧ s.wi = 1) ∧
    (∀ r, s.aborted = some r → r = RngOcl.AbortReason.commFail 9) ∧
    (∀ (f : Nat → Bool) (th : Thread) (t : RngOcl.RState),
      RngOcl.applyT { RngOcl.cfgRead5 with sinkOk := f } th t =
        RngOcl.applyT RngOcl.cfgRead5 th t) := by
  have hc := RngOcl.reach_invCore h
  have hd := RngOcl.reach_invRead5 h
  refine ⟨?_, ?_, ?_, hd.ab, ?_⟩
  · rw [hc.out_len]
    exact hd.wle
  · rw [hc.irng_eq]
    exact hd.mle
  · intro hh
    obtain ⟨h1, h2, h3⟩ := hd.wdone9 hh
    exact ⟨h2, h3, h1⟩
  · intro f th t
    cases th with
    | mainT => cases hm : t.mpc <;> simp [RngOcl.applyT, hm]
    | workT => cases hw : t.wpc <;> simp [RngOcl.applyT, hw]

/-- C3, witness: the transfer-failure scenario instantiated at the end
of the schedule `schedRead5`: the process exits with the transfer's
error 9 recorded in `bufs.status`, after the consumed-signal of the
failing iteration was raised and only the emit of iteration 0. -/
theorem claim_c3_witness :
    (RngOcl.exec RngOcl.cfgRead5 schedRead5
        (RngOcl.initState 0 0)).aborted =
      some (RngOcl.AbortReason.commFail 9) ∧
    (RngOcl.exec RngOcl.cfgRead5 schedRead5
        (RngOcl.initState 0 0)).out.length ≤ 1 ∧
    (RngOcl.exec RngOcl.cfgRead5 schedRead5
        (RngOcl.initState 0 0)).status = 9 ∧
    (RngOcl.exec RngOcl.cfgRead5 schedRead5
        (RngOcl.initState 0 0)).i_comm = 2 := by
  have h := claim_c3_transfer_failure 0 0 _
    (RngOcl.reach_exec RngOcl.cfgRead5 schedRead5 RngOcl.Reach.refl)
  refine ⟨by decide, h.1, ?_, ?_⟩
  · exact (h.2.2.1 (by decide)).1
  · exact (h.2.2.1 (by decide)).2.1

/-- C4, counterexample.  A kernel error does not get recorded in the
shared error slot, does not raise the produced-signal, and is not
surfaced only after both stages have stopped: `HANDLE_ERROR` exits the
whole process on the spot.  At the reachable aborted state of the
`cfgKern5` scenario the shared slot still holds 0, `i_rng` is still 0,
and the worker has not returned. -/
theorem claim_c4_counterexample :
    ¬ (∀ s : RngOcl.RState,
        RngOcl.Reach RngOcl.cfgKern5 (RngOcl.initState 0 0) s →
        s.aborted ≠ none →
        s.status ≠ 0 ∧ 1 ≤ s.i_rng ∧ s.wpc = RngOcl.WPC.done) := by
  intro h
  have hr : RngOcl.Reach RngOcl.cfgKern5 (RngOcl.initState 0 0)
      (RngOcl.exec RngOcl.cfgKern5 schedKern5 (RngOcl.initState 0 0)) :=
    RngOcl.reach_exec RngOcl.cfgKern5 _ RngOcl.Reach.refl
  have hc := h _ hr (by decide)
  exact hc.1 (by decide)

/-- C4, amended.  If a compute unit submission or completion wait
reports an error, `HANDLE_ERROR` terminates the entire process
immediately: in the 5-iteration run whose kernel fails at iteration 0
with code 7, at every reachable instant the produced-signal has never
been raised (`i_rng = 0`, `sem_rng ≤ 1`), nothing was recorded in the
shared error slot (`bufs.status = 0`), the worker never returns, and if
the process has exited, the surfaced error is exactly the kernel's.
The shared slot is reserved for worker-side transfer errors. -/
theorem claim_c4_kernel_error_exits (j1 j2 : Nat) (s : RngOcl.RState)
    (h : RngOcl.Reach RngOcl.cfgKern5 (RngOcl.initState j1 j2) s) :
    s.i_rng = 0 ∧ s.status = 0 ∧ s.sem_rng ≤ 1 ∧ s.out.length ≤ 1 ∧
    s.wpc ≠ RngOcl.WPC.done ∧
    (∀ r, s.aborted = some r → r = RngOcl.AbortReason.kernelFail 7) := by
  have hc := RngOcl.reach_invCore h
  have hd := RngOcl.reach_invKern5 h
  have hir : s.i_rng = 0 := by rw [hc.irng_eq, hd.mi0]
  refine ⟨hir, hd.st0, ?_, ?_, hd.wnd, hd.ab⟩
  · have h1 := hc.semr
    have h2 := RngOcl.waitsR_ge_icomm s
    omega
  · rw [hc.out_len]
    exact hd.wle

/-- C4, witness: the kernel-failure scenario instantiated at the end of
the schedule `schedKern5`: the process is exited with the kernel's error
while the shared slot holds 0, no produced-signal was ever raised, and
the worker has not returned. -/
theorem claim_c4_witness :
    (RngOcl.exec RngOcl.cfgKern5 schedKern5
        (RngOcl.initState 0 0)).aborted =
      some (RngOcl.AbortReason.kernelFail 7) ∧
    (RngOcl.exec RngOcl.cfgKern5 schedKern5
        (RngOcl.initState 0 0)).status = 0 ∧
    (RngOcl.exec RngOcl.cfgKern5 schedKern5
        (RngOcl.initState 0 0)).i_rng = 0 ∧
    (RngOcl.exec RngOcl.cfgKern5 schedKern5
        (RngOcl.initState 0 0)).wpc ≠ RngOcl.WPC.done := by
  have h := claim_c4_kernel_error_exits 0 0 _
    (RngOcl.reach_exec RngOcl.cfgKern5 schedKern5 RngOcl.Reach.refl)
  exact ⟨by decide, h.2.1, h.1, h.2.2.2.2.1⟩

/-- C5, counterexample.  In rng_ccl.c a run with `numiter = 1` does not
complete: the worker emits once, then its exit test compares the
incremented `i_comm = 1` against `numiter - 1 = 0`, misses, and the
worker waits forever on `cond_rng` while the main thread (whose loop
runs zero times) blocks in `pthread_join` — a reachable state in which
neither thread has finished and no step is enabled. -/
theorem claim_c5_counterexample :
    ¬ (∀ s : RngCcl.CState, RngCcl.Reach cclCfg1 (RngCcl.initState 0 0) s →
        RngCcl.Terminal s →
        s.mpc = RngCcl.CMPC.done ∧ s.wpc = RngCcl.CWPC.done) := by
  intro h
  have hr : RngCcl.Reach cclCfg1 (RngCcl.initState 0 0)
      (RngCcl.exec cclCfg1 schedCclDead (RngCcl.initState 0 0)) :=
    RngCcl.creach_exec cclCfg1 _ RngCcl.Reach.refl
  have hterm : RngCcl.Terminal
      (RngCcl.exec cclCfg1 schedCclDead (RngCcl.initState 0 0)) := by
    unfold RngCcl.Terminal
    exact ⟨by decide, by decide⟩
  have hc := h _ hr hterm
  have h1 : (RngCcl.exec cclCfg1 schedCclDead (RngCcl.initState 0 0)).mpc =
      RngCcl.CMPC.join := by decide
  rw [h1] at hc
  exact absurd hc.1 (by decide)

/-- C5, amended.  For the semaphore variant rng_ocl.c the claim holds:
in every run with `numiter = 1` and no external errors, every maximal
execution ends (the `fuel` measure strictly decreases along every step,
so executions are finite) in the unique terminal state, in which both
threads have finished and been joined and exactly one emit — the
initialized buffer's tag 0 — has happened; moreover the main thread
never even reaches its consumed-signal wait, and the worker's single
produced-signal wait is always covered by the initial slack (it can
never block).  The cond-variable variant rng_ccl.c deadlocks instead
(`claim_c5_counterexample`). -/
theorem claim_c5_single_iteration (j1 j2 : Nat) (s : RngOcl.RState)
    (h : RngOcl.Reach RngOcl.cfgOne (RngOcl.initState j1 j2) s) :
    (RngOcl.Terminal s → s.mpc = RngOcl.MPC.done ∧
      s.wpc = RngOcl.WPC.done ∧ s.out = [0] ∧ s.i_comm = 1) ∧
    s.mpc ≠ RngOcl.MPC.wait ∧
    (s.wpc = RngOcl.WPC.wait → 0 < s.sem_rng) ∧
    (∀ (th : Thread) (s' : RngOcl.RState),
      RngOcl.Step RngOcl.cfgOne th s s' →
      RngOcl.fuel RngOcl.cfgOne s' < RngOcl.fuel RngOcl.cfgOne s) := by
  have hc := RngOcl.reach_invCore h
  have hd := RngOcl.reach_invData (fun _ => ⟨rfl, rfl⟩) h
  have hup : uintPred RngOcl.cfgOne.numiter = 0 := by decide
  have hn1 : RngOcl.cfgOne.numiter = 1 := rfl
  have hmw : s.mpc ≠ RngOcl.MPC.wait := by
    intro hmw
    have hml := hc.mi_lt (Or.inl hmw)
    omega
  have hww : s.wpc = RngOcl.WPC.wait → 0 < s.sem_rng := by
    intro hw
    have hwi := hc.wi_lt (by simp [hw])
    have hic : s.i_comm = s.wi := hc.icomm_mid (by simp [hw]) (by simp [hw])
    have hsr := hc.semr
    have hwR : RngOcl.waitsR s = s.i_comm := by simp [RngOcl.waitsR, hw]
    omega
  refine ⟨?_, hmw, hww, fun th s' hs => RngOcl.fuel_decreases hc hs⟩
  intro ht
  obtain ⟨htm, htw⟩ := ht
  have hab := hd.no_abort
  have hwd : s.wpc = RngOcl.WPC.done := by
    cases hw : s.wpc with
    | cond => simp [RngOcl.enabledT, hw, hab] at htw
    | wait =>
      have := hww hw
      simp [RngOcl.enabledT, hw, hab] at htw
      omega
    | read => simp [RngOcl.enabledT, hw, hab] at htw
    | post => simp [RngOcl.enabledT, hw, hab] at htw
    | emit => simp [RngOcl.enabledT, hw, hab] at htw
    | done => rfl
  have hmd : s.mpc = RngOcl.MPC.done := by
    cases hm : s.mpc with
    | cond => simp [RngOcl.enabledT, hm, hab] at htm
    | wait => exact absurd hm hmw
    | check => simp [RngOcl.enabledT, hm, hab] at htm
    | kernel => simp [RngOcl.enabledT, hm, hab] at htm
    | post => simp [RngOcl.enabledT, hm, hab] at htm
    | join => simp [RngOcl.enabledT, hm, hab, hwd] at htm
    | done => rfl
  have hwi : s.wi = RngOcl.cfgOne.numiter := hd.wdone hwd
  have hic1 : s.i_comm = 1 := by
    have hsr := hc.semr
    have hwR : RngOcl.waitsR s = s.i_comm := by simp [RngOcl.waitsR, hwd]
    have hir := hc.irng_eq
    have hml := hc.mi_le
    rcases hc.icomm_done hwd with hh | hh <;> omega
  refine ⟨hmd, hwd, ?_, hic1⟩
  rw [hd.out_eq, hwi, hn1]
  rfl

/-- C5, witness: the complete 1-iteration run along `schedOne` ends in
the joined terminal state with the single emit `[0]`. -/
theorem claim_c5_witness :
    (RngOcl.exec RngOcl.cfgOne schedOne (RngOcl.initState 0 0)).mpc =
      RngOcl.MPC.done ∧
    (RngOcl.exec RngOcl.cfgOne schedOne (RngOcl.initState 0 0)).out =
      [0] ∧
    (RngOcl.exec RngOcl.cfgOne schedOne (RngOcl.initState 0 0)).i_comm =
      1 := by
  have h := claim_c5_single_iteration 0 0 _
    (RngOcl.reach_exec RngOcl.cfgOne schedOne RngOcl.Reach.refl)
  have ht := h.1 (by unfold RngOcl.Terminal; exact ⟨by decide, by decide⟩)
  exact ⟨ht.1, ht.2.2.1, ht.2.2.2⟩

/-- C6 (code_bug).  With `numiter = 0` the initialization pass has still
run (buffer 0 holds tag 0) and no emit ever occurs (the worker's loop
`i < numiter` runs zero times), as the claim says — but the driver's
loop bound `numiter - 1` underflows in `unsigned int` arithmetic to
4294967295, so the steady-state loop body executes (here once, `mi = 1`)
and the driver then blocks forever in its second `sem_wait(&sem_comm)`:
the reached state is terminal (no thread can step) with the main thread
still inside the loop — a deadlock instead of the claimed clean
termination with zero loop executions. -/
theorem claim_c6_zero_iterations :
    RngOcl.Reach RngOcl.cfgZero (RngOcl.initState 0 0)
      (RngOcl.exec RngOcl.cfgZero schedZero (RngOcl.initState 0 0)) ∧
    (RngOcl.exec RngOcl.cfgZero schedZero (RngOcl.initState 0 0)).dev0 =
      0 ∧
    (RngOcl.exec RngOcl.cfgZero schedZero (RngOcl.initState 0 0)).out =
      [] ∧
    (RngOcl.exec RngOcl.cfgZero schedZero (RngOcl.initState 0 0)).mi =
      1 ∧
    (RngOcl.exec RngOcl.cfgZero schedZero (RngOcl.initState 0 0)).mpc =
      RngOcl.MPC.wait ∧
    (RngOcl.exec RngOcl.cfgZero schedZero (RngOcl.initState 0 0)).wpc =
      RngOcl.WPC.done ∧
    RngOcl.Terminal
      (RngOcl.exec RngOcl.cfgZero schedZero (RngOcl.initState 0 0)) ∧
    uintPred 0 = 4294967295 := by
  refine ⟨RngOcl.reach_exec RngOcl.cfgZero schedZero RngOcl.Reach.refl,
    by decide, by decide, by decide, by decide, by decide, ?_, by decide⟩
  unfold RngOcl.Terminal
  exact ⟨by decide, by decide⟩

/-- C7, counterexample.  The program performs no configuration
validation: with the non-numeric argument `"abc"` the element count
parses (via `atoi`) to 0 — not a positive integer — yet the worker
thread is started and steady state proceeds: a state with a completed
first read (`i_comm = 1`) is reachable, contradicting "terminates before
any worker thread is started". -/
theorem claim_c7_counterexample :
    ¬ (∀ args : List String,
        (CParse.parseArgs args).1 = 0 ∨ (CParse.parseArgs args).2 = 0 →
        ∀ s : RngOcl.RState,
          RngOcl.Reach (cfgOfArgs args) (RngOcl.initState 0 0) s →
          s.i_comm = 0) := by
  intro h
  have hr : RngOcl.Reach (cfgOfArgs ["abc"]) (RngOcl.initState 0 0)
      (RngOcl.exec (cfgOfArgs ["abc"]) wsched4 (RngOcl.initState 0 0)) :=
    RngOcl.reach_exec (cfgOfArgs ["abc"]) wsched4 RngOcl.Reach.refl
  have hc := h ["abc"] (Or.inl (by decide)) _ hr
  have h1 : (RngOcl.exec (cfgOfArgs ["abc"]) wsched4
      (RngOcl.initState 0 0)).i_comm = 1 := by decide
  omega

/-- C7, amended.  There is no `ConfigError`: both arguments are parsed
with `atoi` and used as-is — missing arguments default
(`NUMRN_DEFAULT = 16777216`, `NUMITER_DEFAULT = 10000`), a non-numeric
argument silently yields 0, a negative one wraps modulo `2^32` in the
conversion to `unsigned` — and the pipeline starts regardless: under the
invalid element count 0 the worker still completes its first read. -/
theorem claim_c7_no_validation :
    CParse.parseArgs [] = (16777216, 10000) ∧
    CParse.parseArgs ["abc"] = (0, 10000) ∧
    CParse.parseArgs ["-3", "7"] = (4294967293, 7) ∧
    CParse.parseArgs ["1024", "0"] = (1024, 0) ∧
    (RngOcl.exec (cfgOfArgs ["abc"]) wsched4
      (RngOcl.initState 0 0)).i_comm = 1 ∧
    RngOcl.Reach (cfgOfArgs ["abc"]) (RngOcl.initState 0 0)
      (RngOcl.exec (cfgOfArgs ["abc"]) wsched4 (RngOcl.initState 0 0)) :=
  ⟨by decide, by decide, by decide, by decide, by decide,
    RngOcl.reach_exec (cfgOfArgs ["abc"]) wsched4 RngOcl.Reach.refl⟩

/-- C8.  Both semaphores are initialized to 1 (rng_ocl.c lines 207-209),
and this initial slack is exactly what lets each stage run its first
iteration without the other: from the initial state the main thread can
complete a whole loop iteration (five consecutive main-thread steps,
through `sem_wait(&sem_comm)`, to `i_rng = 1`) with the worker never
scheduled (`i_comm = 0`), and the worker can complete its first read
(four consecutive worker steps, through `sem_wait(&sem_rng)`, to
`i_comm = 1`) with the main thread never scheduled (`i_rng = 0`). -/
theorem claim_c8_initial_slack (cfg : RngOcl.RConfig) (j1 j2 : Nat)
    (ht : 2 ≤ cfg.numiter) (htm : cfg.numiter ≤ 4294967295)
    (hk : cfg.kernErr 0 = 0) (hrd : cfg.readErr 0 = 0) :
    (RngOcl.initState j1 j2).sem_rng = 1 ∧
    (RngOcl.initState j1 j2).sem_comm = 1 ∧
    (∃ s1 s2 s3 s4 s5 : RngOcl.RState,
      RngOcl.Step cfg .mainT (RngOcl.initState j1 j2) s1 ∧
      RngOcl.Step cfg .mainT s1 s2 ∧ RngOcl.Step cfg .mainT s2 s3 ∧
      RngOcl.Step cfg .mainT s3 s4 ∧ RngOcl.Step cfg .mainT s4 s5 ∧
      s5.i_rng = 1 ∧ s5.i_comm = 0) ∧
    (∃ u1 u2 u3 u4 : RngOcl.RState,
      RngOcl.Step cfg .workT (RngOcl.initState j1 j2) u1 ∧
      RngOcl.Step cfg .workT u1 u2 ∧ RngOcl.Step cfg .workT u2 u3 ∧
      RngOcl.Step cfg .workT u3 u4 ∧ u4.i_comm = 1 ∧ u4.i_rng = 0) := by
  have hup : 0 < uintPred cfg.numiter := by
    unfold uintPred
    omega
  have h0t : 0 < cfg.numiter := by omega
  have hsig : (RngOcl.initState j1 j2).sem_rng = 1 ∧
      (RngOcl.initState j1 j2).sem_comm = 1 := ⟨rfl, rfl⟩
  refine ⟨hsig.1, hsig.2, ?_, ?_⟩
  · let t0 := RngOcl.initState j1 j2
    let t1 : RngOcl.RState := { t0 with mpc := .wait }
    let t2 : RngOcl.RState := { t0 with mpc := .check, sem_comm := 0 }
    let t3 : RngOcl.RState := { t0 with mpc := .kernel, sem_comm := 0 }
    let t4 : RngOcl.RState :=
      { t0 with mpc := .post, sem_comm := 0, dev1 := 1 }
    let t5 : RngOcl.RState :=
      { t0 with mpc := .cond, sem_comm := 0, dev1 := 1, sem_rng := 2,
                i_rng := 1, mb1 := 1, mb2 := 0, mi := 1 }
    refine ⟨t1, t2, t3, t4, t5, ?_, ?_, ?_, ?_, ?_, rfl, rfl⟩
    · exact ⟨by simp [RngOcl.enabledT, RngOcl.initState],
        by simp [t1, t0, RngOcl.applyT, RngOcl.initState, hup]⟩
    · exact ⟨by simp [t1, t0, RngOcl.enabledT, RngOcl.initState],
        by simp [t1, t2, t0, RngOcl.applyT, RngOcl.initState]⟩
    · exact ⟨by simp [t2, t0, RngOcl.enabledT, RngOcl.initState],
        by simp [t2, t3, t0, RngOcl.applyT, RngOcl.initState]⟩
    · exact ⟨by simp [t3, t0, RngOcl.enabledT, RngOcl.initState],
        by simp [t3, t4, t0, RngOcl.applyT, RngOcl.initState, hk]⟩
    · exact ⟨by simp [t4, t0, RngOcl.enabledT, RngOcl.initState],
        by simp [t4, t5, t0, RngOcl.applyT, RngOcl.initState]⟩
  · let t0 := RngOcl.initState j1 j2
    let v1 : RngOcl.RState := { t0 with wpc := .wait }
    let v2 : RngOcl.RState := { t0 with wpc := .read, sem_rng := 0 }
    let v3 : RngOcl.RState :=
      { t0 with wpc := .post, sem_rng := 0, bufhost := 0 }
    let v4 : RngOcl.RState :=
      { t0 with wpc := .emit, sem_rng := 0, bufhost := 0, sem_comm := 2,
                i_comm := 1 }
    refine ⟨v1, v2, v3, v4, ?_, ?_, ?_, ?_, rfl, rfl⟩
    · exact ⟨by simp [RngOcl.enabledT, RngOcl.initState],
        by simp [v1, t0, RngOcl.applyT, RngOcl.initState, h0t]⟩
    · exact ⟨by simp [v1, t0, RngOcl.enabledT, RngOcl.initState],
        by simp [v1, v2, t0, RngOcl.applyT, RngOcl.initState]⟩
    · exact ⟨by simp [v2, t0, RngOcl.enabledT, RngOcl.initState],
        by simp [v2, v3, t0, RngOcl.applyT, RngOcl.initState, hrd,
          RngOcl.getDev]⟩
    · exact ⟨by simp [v3, t0, RngOcl.enabledT, RngOcl.initState],
        by simp [v3, v4, t0, RngOcl.applyT, RngOcl.initState]⟩

/-- C8, witness: the initial-slack theorem instantiated at the default
configuration. -/
theorem claim_c8_witness :
    (RngOcl.initState 0 0).sem_rng = 1 ∧
    (RngOcl.initState 0 0).sem_comm = 1 ∧
    (∃ s1 s2 s3 s4 s5 : RngOcl.RState,
      RngOcl.Step RngOcl.cfgDefault .mainT (RngOcl.initState 0 0) s1 ∧
      RngOcl.Step RngOcl.cfgDefault .mainT s1 s2 ∧
      RngOcl.Step RngOcl.cfgDefault .mainT s2 s3 ∧
      RngOcl.Step RngOcl.cfgDefault .mainT s3 s4 ∧
      RngOcl.Step RngOcl.cfgDefault .mainT s4 s5 ∧
      s5.i_rng = 1 ∧ s5.i_comm = 0) ∧
    (∃ u1 u2 u3 u4 : RngOcl.RState,
      RngOcl.Step RngOcl.cfgDefault .workT (RngOcl.initState 0 0) u1 ∧
      RngOcl.Step RngOcl.cfgDefault .workT u1 u2 ∧
      RngOcl.Step RngOcl.cfgDefault .workT u2 u3 ∧
      RngOcl.Step RngOcl.cfgDefault .workT u3 u4 ∧
      u4.i_comm = 1 ∧ u4.i_rng = 0) :=
  claim_c8_initial_slack RngOcl.cfgDefault 0 0 (by decide) (by decide)
    rfl rfl

/-- C9.  The manual pointer swaps refine the spec's
`slot(i) = i mod 2` discipline: at every reachable instant of every run
the worker's read pointer `bufdev1` equals `slot` of its iteration
counter, the main thread's pointers equal `slot` of its counter and of
the next one (the kernel of iteration `i` writes `B[(i+1) mod 2]`, i.e.
production `p` lands in `B[p mod 2]`), the same slot is written again
two iterations later, and never by the intervening iteration. -/
theorem claim_c9_slot_refinement (cfg : RngOcl.RConfig) (j1 j2 : Nat)
    (s : RngOcl.RState) (h : RngOcl.Reach cfg (RngOcl.initState j1 j2) s) :
    s.wb1 = RngOcl.slot s.wi ∧ s.mb1 = RngOcl.slot s.mi ∧
    s.mb2 = RngOcl.slot (s.mi + 1) ∧
    RngOcl.slot (s.wi + 2) = RngOcl.slot s.wi ∧
    RngOcl.slot (s.wi + 1) ≠ RngOcl.slot s.wi := by
  have hc := RngOcl.reach_invCore h
  have h1 := hc.wb1_eq
  have h2 := hc.mb1_eq
  have h3 := hc.mb2_eq
  refine ⟨h1, h2, ?_, ?_, ?_⟩ <;> unfold RngOcl.slot <;> omega

/-- C9, witness: the slot refinement instantiated at the initial state
of a default run. -/
theorem claim_c9_witness :
    (RngOcl.initState 0 0).wb1 = RngOcl.slot (RngOcl.initState 0 0).wi ∧
    (RngOcl.initState 0 0).mb1 = RngOcl.slot (RngOcl.initState 0 0).mi ∧
    (RngOcl.initState 0 0).mb2 =
      RngOcl.slot ((RngOcl.initState 0 0).mi + 1) ∧
    RngOcl.slot ((RngOcl.initState 0 0).wi + 2) =
      RngOcl.slot (RngOcl.initState 0 0).wi ∧
    RngOcl.slot ((RngOcl.initState 0 0).wi + 1) ≠
      RngOcl.slot (RngOcl.initState 0 0).wi :=
  claim_c9_slot_refinement RngOcl.cfgDefault 0 0 (RngOcl.initState 0 0)
    RngOcl.Reach.refl

/-- C10, counterexample.  On the claim's own example input
`"1234567,1"` the parser does not return TRUE with the pair
`(123456, 7)`: the first `%6d` consumes only `123456`, the literal `','`
of the format then fails to match the next character `'7'`, `sscanf`
stops with 1 successful conversion, and `ccl_ex_parse_pairs` returns
FALSE. -/
theorem claim_c10_counterexample :
    CParse.sscanfPairs "1234567,1" = (1, some 123456, none) ∧
    CParse.ccl_ex_parse_pairs "1234567,1" = false := by
  exact ⟨by decide, by decide⟩

/-- C10, amended.  `ccl_ex_parse_pairs` returns TRUE exactly when the
`sscanf` with format `"%6d,%6d"` makes two successful conversions, and
trailing characters are indeed accepted silently — but a first number of
7 or more digits is not silently split into a pair: the `','` literal
fails on the 7th digit and the macro returns FALSE.  The silent
truncation to 6 digits happens at the second field: `"1,1234567"` yields
the pair `(1, 123456)` with TRUE and a silently ignored trailing
`"7"`. -/
theorem claim_c10_parse_pairs :
    CParse.ccl_ex_parse_pairs "1234567,1" = false ∧
    CParse.sscanfPairs "1,1234567" = (2, some 1, some 123456) ∧
    CParse.ccl_ex_parse_pairs "1,1234567" = true ∧
    CParse.sscanfPairs "12,34xyz" = (2, some 12, some 34) ∧
    CParse.ccl_ex_parse_pairs "12,34xyz" = true ∧
    CParse.sscanfPairs "x3,4" = (0, none, none) ∧
    CParse.ccl_ex_parse_pairs "x3,4" = false := by
  refine ⟨by decide, by decide, by decide, by decide, by decide,
    by decide, by decide⟩
